import Mathlib

/-!
Shallow embedding of `syzygy/agent/asan/heaps/zebra_block_heap.cc`
(class `ZebraBlockHeap`), a page-granular slab allocator with a
quarantine ring.

Modelling conventions:
- Addresses and sizes are natural numbers; the null pointer is `0`.
  The target is 32-bit Windows, so `size_t` sums that can wrap are
  taken modulo `2^32` where the source computes them in `size_t`.
- `kInvalidSlabIndex` (returned by `GetSlabIndex`) is modelled as
  `Option.none`; `kUnknownSize` (returned by `GetAllocationSize`) is
  modelled as `Option.none` as well.
- The quarantine ratio is a `float` (IEEE-754 binary32) in the source
  (`quarantine_.size() / static_cast<float>(slab_count_) <= quarantine_ratio_`).
  Every finite binary32 value is an integer multiple of `2^-149`, so a
  finite nonnegative binary32 is represented exactly as a natural number:
  its value scaled by `2^149`.  The integer→float conversions and the
  float division are modelled with correct round-to-nearest, ties-to-even
  (the x86 default mode the program runs under); a non-finite quotient
  (`NaN` from `0/0`, `+∞` from `x/0` or overflow) is `Option.none`, and
  any IEEE `<=` comparison against it is false.  The stored ratio is
  taken to be a finite nonnegative float, per the documented `[0, 1]`
  contract of `set_quarantine_ratio`.
- `DCHECK` statements are debug-build assertions and compile to nothing
  in release builds; the functions below follow the release semantics
  (each `DCHECK` is recorded in a comment where it occurs).
- The single recursive lock serializes every operation; operations are
  modelled as pure state transformers on the heap structure.
-/

set_option maxRecDepth 8192

namespace Zebra

/-- `2^32`: the modulus of `size_t` arithmetic on the 32-bit target. -/
def U32 : Nat := 4294967296

/-! ### IEEE-754 binary32 arithmetic, on values scaled by `2^149`

A finite nonnegative binary32 value is an integer multiple of `2^-149`; it
is represented by that integer (the value times `2^149`).  In that scale
the rounding quantum of a value `v` with `2^E ≤ v·2^149 < 2^(E+1)` is
`2^(E-23)` for a normal value (`E ≥ 23`) and `1` for a subnormal one
(`E < 23`), which truncated `Nat` subtraction expresses as `2^(E − 23)`. -/

/-- Floor of the binary logarithm, by structural recursion on explicit fuel
(512 exceeds the bit length of every number occurring here: a scaled
binary32 value is below `2^277`, and the division below scales its
numerator by a further `2^149`). -/
def log2Aux : Nat → Nat → Nat
  | _, 0 => 0
  | 0, _ => 0
  | fuel + 1, n => if 2 ≤ n then log2Aux fuel (n / 2) + 1 else 0

/-- `ilog2 n = ⌊log₂ n⌋` (0 at 0), kernel-computable. -/
def ilog2 (n : Nat) : Nat := log2Aux 512 n

/-- Round the nonnegative rational `num / den` (already scaled by `2^149`)
to the binary32 grid, round-to-nearest, ties to even: `e` is the binary
exponent of the exact quotient, `den * q` the scaled quantum times `den`,
`f` and `r` the quotient and remainder against it, and `m` the chosen
mantissa-multiple. -/
def f32RoundScaled (num den : Nat) : Nat :=
  let e := ilog2 (num / den)
  let q := 2 ^ (e - 23)
  let f := num / (den * q)
  let r := num % (den * q)
  let m := if 2 * r < den * q then f
    else if den * q < 2 * r then f + 1
    else if f % 2 = 0 then f else f + 1
  m * q

/-- `static_cast<float>(n)` for a nonnegative integer (scaled by `2^149`):
exact below `2^24`, rounded to nearest (ties to even) above.  No `size_t`
value reaches the binary32 overflow threshold. -/
def natToF32 (n : Nat) : Nat := f32RoundScaled (n * 2 ^ 149) 1

/-- The largest finite binary32 value, scaled: `(2^24 − 1)·2^104 · 2^149`. -/
def f32MaxScaled : Nat := (2 ^ 24 - 1) * 2 ^ 253

/-- IEEE binary32 division of two finite nonnegative floats (scaled by
`2^149`): `none` is a non-finite result (`NaN` from `0/0`, `+∞` from
`x/0` or overflow), which every IEEE `<=` comparison treats as false. -/
def f32Div (a b : Nat) : Option Nat :=
  if b = 0 then none
  else
    let n := f32RoundScaled (a * 2 ^ 149) b
    if f32MaxScaled < n then none else some n

/-- `CompactBlockInfo`: the per-slab allocation descriptor
(block start address, block size, header size, trailer size, nested flag). -/
structure CompactBlockInfo where
  block : Nat
  block_size : Nat
  header_size : Nat
  trailer_size : Nat
  is_nested : Bool
deriving DecidableEq, Repr

/-- The descriptor after `memset(&info, 0, sizeof(info))`. -/
def zeroInfo : CompactBlockInfo := ⟨0, 0, 0, 0, false⟩

/-- `SlabState`: the three-state machine of a slab. -/
inductive SlabState where
  | kFreeSlab
  | kAllocatedSlab
  | kQuarantinedSlab
deriving DecidableEq, Repr

/-- `SlabInfo`: one entry of the slab metadata table. -/
structure SlabInfo where
  state : SlabState
  info : CompactBlockInfo
deriving DecidableEq, Repr

/-- The entry of a `kFreeSlab` slab (also used as the out-of-table default
of `getD`; a well-formed heap never reads past the table). -/
def defaultSlabInfo : SlabInfo := ⟨SlabState.kFreeSlab, zeroInfo⟩

/-- The mutable state of a `ZebraBlockHeap` together with its configuration:
`pageSize` is `GetPageSize()`, `shadowRatio` is `kShadowRatio`,
`heapAddress`/`heapSize` the reserved region, `slabCount = heapSize / (2 * pageSize)`,
`slabInfo` the metadata table, `quarantineRatio` the stored binary32
`quarantine_ratio_` field represented exactly as its value scaled by
`2^149`, `freeSlabs` and `quarantine` the two FIFO index queues (head
first). -/
structure ZebraBlockHeap where
  pageSize : Nat
  shadowRatio : Nat
  heapAddress : Nat
  heapSize : Nat
  slabCount : Nat
  slabInfo : List SlabInfo
  quarantineRatio : Nat
  freeSlabs : List Nat
  quarantine : List Nat
deriving DecidableEq, Repr

/-- `kSlabSize = 2 * GetPageSize()`. -/
def slabSize (h : ZebraBlockHeap) : Nat := 2 * h.pageSize

/-- The slab metadata table entry `slab_info_[i]`. -/
def slabAt (h : ZebraBlockHeap) (i : Nat) : SlabInfo :=
  h.slabInfo.getD i defaultSlabInfo

/-- `::common::AlignDown(addr, k)`: round down to a multiple of `k`. -/
def alignDown (a k : Nat) : Nat := a - a % k

/-- `::common::AlignUp(x, k)`: round up to a multiple of `k`. -/
def alignUp (x k : Nat) : Nat := (x + k - 1) / k * k

/-- `ZebraBlockHeap::GetSlabIndex`: the index of the slab holding `address`,
`none` for `kInvalidSlabIndex` (address outside `[heap_address_, heap_address_ + heap_size_)`). -/
def GetSlabIndex (h : ZebraBlockHeap) (address : Nat) : Option Nat :=
  if address < h.heapAddress ∨ address ≥ h.heapAddress + h.heapSize then none
  else some ((address - h.heapAddress) / slabSize h)

/-- `ZebraBlockHeap::GetSlabAddress`: `heap_address_ + index * kSlabSize`,
null (0) for an out-of-range index. -/
def GetSlabAddress (h : ZebraBlockHeap) (index : Nat) : Nat :=
  if index ≥ h.slabCount then 0
  else h.heapAddress + index * slabSize h

/-- The base address of slab `i` (the start of its even page). -/
def slabBase (h : ZebraBlockHeap) (i : Nat) : Nat :=
  h.heapAddress + i * slabSize h

/-- The `ZebraBlockHeap` constructor: rounds the requested size up to a
multiple of `kSlabSize`, reserves the region (the OS-chosen base address is a
parameter here), marks every slab `kFreeSlab` with a zeroed descriptor and
enqueues every index into the free queue in ascending order.  The initial
`quarantine_ratio_` (`kDefaultZebraBlockHeapQuarantineRatio`, a constant of a
header outside the sources) is a parameter, a binary32 value scaled by
`2^149`. -/
def initHeap (heap_size heapAddress pageSize shadowRatio : Nat)
    (r : Nat) : ZebraBlockHeap :=
  let hs := alignUp heap_size (2 * pageSize)
  let n := hs / (2 * pageSize)
  { pageSize := pageSize
    shadowRatio := shadowRatio
    heapAddress := heapAddress
    heapSize := hs
    slabCount := n
    slabInfo := List.replicate n defaultSlabInfo
    quarantineRatio := r
    freeSlabs := List.range n
    quarantine := [] }

/-- `ZebraBlockHeap::AllocateImpl`.  The source returns a `SlabInfo*` into the
table (or `NULL`); the model returns the slab's index (or `none`) next to the
updated heap.  `DCHECK_NE(kInvalidSlabIndex, slab_index)` and
`DCHECK_NE(NULL, slab_address)` hold on well-formed heaps. -/
def AllocateImpl (h : ZebraBlockHeap) (bytes : Nat) : Option Nat × ZebraBlockHeap :=
  if bytes = 0 ∨ bytes > h.pageSize then (none, h)
  else
    match h.freeSlabs with
    | [] => (none, h)
    | slab_index :: rest =>
      let slab_address := GetSlabAddress h slab_index
      -- Push the allocation to the end of the even page.
      let alloc := alignDown (slab_address + h.pageSize - bytes) h.shadowRatio
      (some slab_index,
        { h with
          freeSlabs := rest
          slabInfo := h.slabInfo.set slab_index
            ⟨SlabState.kAllocatedSlab, ⟨alloc, bytes, 0, 0, false⟩⟩ })

/-- `ZebraBlockHeap::Allocate`: returns `info.block` of the slab `AllocateImpl`
produced, or null. -/
def Allocate (h : ZebraBlockHeap) (bytes : Nat) : Nat × ZebraBlockHeap :=
  match AllocateImpl h bytes with
  | (none, h2) => (0, h2)
  | (some i, h2) => ((slabAt h2 i).info.block, h2)

/-- `ZebraBlockHeap::Free`.  Release semantics: the debug assertion
`DCHECK_NE(kQuarantinedSlab, slab_info_[slab_index].state)` compiles to
nothing, so a quarantined slab whose block address matches falls through to
the success path. -/
def Free (h : ZebraBlockHeap) (alloc : Nat) : Bool × ZebraBlockHeap :=
  if alloc = 0 then (true, h)
  else
    match GetSlabIndex h alloc with
    | none => (false, h)
    | some slab_index =>
      if (slabAt h slab_index).info.block ≠ alloc then (false, h)
      -- Memory must be released from the quarantine before calling Free:
      -- DCHECK_NE(kQuarantinedSlab, slab_info_[slab_index].state);
      else if (slabAt h slab_index).state = SlabState.kFreeSlab then (false, h)
      else
        (true,
          { h with
            slabInfo := h.slabInfo.set slab_index ⟨SlabState.kFreeSlab, zeroInfo⟩
            freeSlabs := h.freeSlabs ++ [slab_index] })

/-- `ZebraBlockHeap::IsAllocated`. -/
def IsAllocated (h : ZebraBlockHeap) (alloc : Nat) : Bool :=
  if alloc = 0 then false
  else
    match GetSlabIndex h alloc with
    | none => false
    | some slab_index =>
      if (slabAt h slab_index).state = SlabState.kFreeSlab then false
      else if (slabAt h slab_index).info.block ≠ alloc then false
      else true

/-- `ZebraBlockHeap::GetAllocationSize`; `none` models `kUnknownSize`. -/
def GetAllocationSize (h : ZebraBlockHeap) (alloc : Nat) : Option Nat :=
  if alloc = 0 then none
  else
    match GetSlabIndex h alloc with
    | none => none
    | some slab_index =>
      if (slabAt h slab_index).state = SlabState.kFreeSlab then none
      else if (slabAt h slab_index).info.block ≠ alloc then none
      else some (slabAt h slab_index).info.block_size

/-- `BlockLayout`: the layout descriptor produced by the external planner
`BlockPlanLayout` (fields as in `syzygy/agent/asan/block.h`). -/
structure BlockLayout where
  block_alignment : Nat
  block_size : Nat
  header_size : Nat
  header_padding_size : Nat
  body_size : Nat
  trailer_padding_size : Nat
  trailer_size : Nat
deriving DecidableEq, Repr

/-- The external layout planner `BlockPlanLayout`, an out-of-scope
collaborator: arguments are chunk size, alignment, requested size, minimum
left redzone, minimum right redzone; `none` models a `false` return. -/
def Planner : Type :=
  Nat → Nat → Nat → Nat → Nat → Option BlockLayout

/-- Whether `ZebraBlockHeap::AllocateBlock` reaches its `BlockPlanLayout`
call, i.e. whether both early rejection tests pass.  The sum
`min_left_redzone_size + size` is computed in `size_t` and may wrap. -/
def AllocateBlockInvokesPlanner (h : ZebraBlockHeap)
    (size min_left_redzone_size min_right_redzone_size : Nat) : Bool :=
  ((min_left_redzone_size + size) % U32 ≤ h.pageSize) &&
    (min_right_redzone_size ≤ h.pageSize)

/-- `ZebraBlockHeap::AllocateBlock`, with the external `BlockPlanLayout`
supplied as a function parameter.  Returns the allocation address (null on
any failure) next to the updated heap.
`DCHECK_EQ(0u, alloc % kShadowRatio)` holds on well-formed heaps. -/
def AllocateBlock (h : ZebraBlockHeap) (planner : Planner)
    (size min_left_redzone_size min_right_redzone_size : Nat) :
    Nat × ZebraBlockHeap :=
  -- Abort if the redzones do not fit in a page.
  if (min_left_redzone_size + size) % U32 > h.pageSize then (0, h)
  else if min_right_redzone_size > h.pageSize then (0, h)
  else
    -- Plan the block layout.
    match planner h.pageSize h.shadowRatio size min_left_redzone_size
        (max h.pageSize min_right_redzone_size) with
    | none => (0, h)
    | some layout =>
      if layout.block_size ≠ slabSize h then (0, h)
      else
        let right_redzone_size :=
          (layout.trailer_size + layout.trailer_padding_size) % U32
        -- Part of the body lies inside an "odd" page.
        if right_redzone_size < h.pageSize then (0, h)
        -- There should be less than kShadowRatio bytes between the body end
        -- and the "odd" page.
        else if right_redzone_size - h.pageSize ≥ h.shadowRatio then (0, h)
        else
          match AllocateImpl h h.pageSize with
          | (none, h2) => (0, h2)
          | (some i, h2) =>
            let si := slabAt h2 i
            let si2 : SlabInfo :=
              ⟨si.state,
                { si.info with
                  block_size := layout.block_size
                  header_size :=
                    (layout.header_size + layout.header_padding_size) % U32
                  trailer_size := right_redzone_size
                  is_nested := false }⟩
            (si2.info.block, { h2 with slabInfo := h2.slabInfo.set i si2 })

/-- `ZebraBlockHeap::Push`: quarantine the slab holding `info.block`.  The
source compares descriptors with `memcmp` over `sizeof(CompactBlockInfo)`,
modelled as structural equality. -/
def Push (h : ZebraBlockHeap) (info : CompactBlockInfo) : Bool × ZebraBlockHeap :=
  match GetSlabIndex h info.block with
  | none => (false, h)
  | some slab_index =>
    if (slabAt h slab_index).state ≠ SlabState.kAllocatedSlab then (false, h)
    else if (slabAt h slab_index).info ≠ info then (false, h)
    else
      (true,
        { h with
          quarantine := h.quarantine ++ [slab_index]
          slabInfo := h.slabInfo.set slab_index
            ⟨SlabState.kQuarantinedSlab, (slabAt h slab_index).info⟩ })

/-- `ZebraBlockHeap::QuarantineInvariantIsSatisfied`:
`quarantine_.size() / static_cast<float>(slab_count_) <= quarantine_ratio_`.
Both `size_t` operands convert to binary32, the quotient is the correctly
rounded binary32 division, and the `<=` on finite floats is the comparison
of their exact (scaled) values; a non-finite quotient compares false. -/
def QuarantineInvariantIsSatisfied (h : ZebraBlockHeap) : Bool :=
  h.quarantine.isEmpty ||
    match f32Div (natToF32 h.quarantine.length) (natToF32 h.slabCount) with
    | none => false
    | some q => q ≤ h.quarantineRatio

/-- `ZebraBlockHeap::Pop`: evict the oldest quarantine entry once the ratio
invariant is violated.  The out-parameter write `*info = ...` is modelled by
returning `some info`.  The `[]` branch under a failed invariant is
unreachable (an empty quarantine satisfies the invariant); the source calls
`quarantine_.front()` there.  `DCHECK_EQ(kQuarantinedSlab, ...)` holds on
heaps reachable without debug-assertion violations. -/
def Pop (h : ZebraBlockHeap) : Option CompactBlockInfo × ZebraBlockHeap :=
  if QuarantineInvariantIsSatisfied h then (none, h)
  else
    match h.quarantine with
    | [] => (none, h)
    | slab_index :: rest =>
      (some (slabAt h slab_index).info,
        { h with
          quarantine := rest
          slabInfo := h.slabInfo.set slab_index
            ⟨SlabState.kAllocatedSlab, (slabAt h slab_index).info⟩ })

/-- The loop of `ZebraBlockHeap::Empty`: drain the quarantine queue,
releasing each slab back to `kAllocatedSlab` (without freeing it) and
appending its descriptor to the output vector. -/
def emptyGo (slabs : List SlabInfo) (q : List Nat) (acc : List CompactBlockInfo) :
    List SlabInfo × List CompactBlockInfo :=
  match q with
  | [] => (slabs, acc)
  | slab_index :: rest =>
    let si := slabs.getD slab_index defaultSlabInfo
    emptyGo (slabs.set slab_index ⟨SlabState.kAllocatedSlab, si.info⟩) rest
      (acc ++ [si.info])

/-- `ZebraBlockHeap::Empty`: the drained descriptors (in pop order, appended
to an initially empty output vector) next to the updated heap. -/
def Empty (h : ZebraBlockHeap) : List CompactBlockInfo × ZebraBlockHeap :=
  let p := emptyGo h.slabInfo h.quarantine []
  (p.2, { h with slabInfo := p.1, quarantine := [] })

/-- `ZebraBlockHeap::GetCount`: the quarantine occupancy. -/
def GetCount (h : ZebraBlockHeap) : Nat := h.quarantine.length

/-- `ZebraBlockHeap::set_quarantine_ratio` (its two `DCHECK`s restrict the
argument to `[0,1]` in debug builds only). -/
def set_quarantine_ratio (h : ZebraBlockHeap) (r : Nat) : ZebraBlockHeap :=
  { h with quarantineRatio := r }

/-! ### Concrete example states

A one-slab heap (page size 16, shadow ratio 8, base address 16, so the slab
is `[16, 48)`) whose single slab has been allocated (block address 16) and
then pushed into the quarantine. -/

/-- A heap whose slab 0 is quarantined with block address 16 (its
quarantine ratio is the float `1.0`, scaled). -/
def quarHeap : ZebraBlockHeap :=
  (Push (Allocate (initHeap 32 16 16 8 (2 ^ 149)) 16).2
    ⟨16, 16, 0, 0, false⟩).2

example : (slabAt quarHeap 0).state = SlabState.kQuarantinedSlab := by decide

/-! ### Arithmetic helpers -/

theorem alignDown_le (a k : Nat) : alignDown a k ≤ a := Nat.sub_le _ _

theorem alignDown_add_left {k b : Nat} (hb : k ∣ b) (x : Nat) :
    alignDown (b + x) k = b + alignDown x k := by
  obtain ⟨m, rfl⟩ := hb
  unfold alignDown
  rw [Nat.mul_add_mod, Nat.add_sub_assoc (Nat.mod_le x k)]

theorem slabSize_dvd_of_dvd {h : ZebraBlockHeap} (hp : h.shadowRatio ∣ h.pageSize) :
    h.shadowRatio ∣ slabSize h := by
  unfold slabSize
  exact Dvd.dvd.mul_left hp 2

theorem dvd_slabBase {h : ZebraBlockHeap} (hb : h.shadowRatio ∣ h.heapAddress)
    (hp : h.shadowRatio ∣ h.pageSize) (i : Nat) :
    h.shadowRatio ∣ slabBase h i := by
  unfold slabBase
  exact Nat.dvd_add hb (Dvd.dvd.mul_left (slabSize_dvd_of_dvd hp) i)

theorem getD_set_self {α : Type} (l : List α) (i : Nat) (a d : α)
    (hi : i < l.length) : (l.set i a).getD i d = a := by
  rw [List.getD_eq_getElem?_getD, List.getElem?_set_self (by omega)]
  rfl

theorem getD_set_ne {α : Type} (l : List α) {i j : Nat} (a d : α)
    (hij : i ≠ j) : (l.set i a).getD j d = l.getD j d := by
  rw [List.getD_eq_getElem?_getD, List.getElem?_set_ne hij,
    List.getD_eq_getElem?_getD]

theorem quarantineInvariant_true_iff (h : ZebraBlockHeap) :
    QuarantineInvariantIsSatisfied h = true ↔
      h.quarantine = [] ∨
        ∃ q, f32Div (natToF32 h.quarantine.length) (natToF32 h.slabCount)
          = some q ∧ q ≤ h.quarantineRatio := by
  unfold QuarantineInvariantIsSatisfied
  cases hd : f32Div (natToF32 h.quarantine.length) (natToF32 h.slabCount) with
  | none => simp [List.isEmpty_iff]
  | some q => simp [List.isEmpty_iff]

/-! ### C1: `Free` -/

/-- C1 (counterexample): on a heap whose slab 0 is `kQuarantinedSlab` with
recorded block address 16, `Free(16)` does not fail as the claim states: it
returns `true` and mutates the state (the slab becomes `kFreeSlab` and its
index is appended to the free queue).  The quarantined case is guarded only
by a debug assertion in the source. -/
theorem zebra_c1_cex :
    (slabAt quarHeap 0).state = SlabState.kQuarantinedSlab ∧
    (slabAt quarHeap 0).info.block = 16 ∧
    GetSlabIndex quarHeap 16 = some 0 ∧
    (Free quarHeap 16).1 = true ∧
    (slabAt (Free quarHeap 16).2 0).state = SlabState.kFreeSlab ∧
    (Free quarHeap 16).2.freeSlabs = [0] := by decide

/-- C1 (amended): `Free(ptr)` with `ptr == NULL` returns success without
changing any state; for non-null `ptr` it fails (returns false, state
unchanged) if and only if `ptr` does not map to a slab of the region, or
does not exactly equal the slab's recorded block address, or the slab is
already `Free`; a currently `Quarantined` slab is guarded only by a
debug assertion, and in release semantics `Free` succeeds on it; on success
it zeroes the slab's descriptor, sets its state to `Free`, and appends the
slab index to the free queue. -/
theorem zebra_c1_amended (h : ZebraBlockHeap) (a : Nat) :
    (a = 0 → Free h a = (true, h)) ∧
    (a ≠ 0 →
      ((Free h a).1 = false ↔
        GetSlabIndex h a = none ∨
          ∃ i, GetSlabIndex h a = some i ∧
            ((slabAt h i).info.block ≠ a ∨
              (slabAt h i).state = SlabState.kFreeSlab))) ∧
    ((Free h a).1 = false → (Free h a).2 = h) ∧
    (∀ i, a ≠ 0 → GetSlabIndex h a = some i →
      (slabAt h i).info.block = a →
      (slabAt h i).state ≠ SlabState.kFreeSlab →
      Free h a =
        (true,
          { h with
            slabInfo := h.slabInfo.set i ⟨SlabState.kFreeSlab, zeroInfo⟩
            freeSlabs := h.freeSlabs ++ [i] })) := by
  refine ⟨fun ha => by simp [Free, ha], ?_, ?_, ?_⟩
  · intro ha
    unfold Free
    rw [if_neg ha]
    cases hgi : GetSlabIndex h a with
    | none => simp
    | some i =>
      by_cases hb : (slabAt h i).info.block = a
      · by_cases hs : (slabAt h i).state = SlabState.kFreeSlab
        · simp [hb, hs]
        · simp [hb, hs]
      · simp [hb]
  · intro hf
    unfold Free at hf ⊢
    by_cases ha : a = 0
    · simp [ha] at hf
    · rw [if_neg ha] at hf ⊢
      cases hgi : GetSlabIndex h a with
      | none => simp
      | some i =>
        rw [hgi] at hf
        by_cases hb : (slabAt h i).info.block = a
        · by_cases hs : (slabAt h i).state = SlabState.kFreeSlab
          · simp [hb, hs]
          · simp [hb, hs] at hf
        · simp [hb]
  · intro i ha hgi hb hs
    unfold Free
    rw [if_neg ha, hgi]
    simp [hb, hs]

/-! ### C2: `IsAllocated` and `GetAllocationSize` -/

/-- C2 (counterexample): `IsAllocated` returns `true` for a pointer whose
slab is `kQuarantinedSlab` (the source only tests `state == kFreeSlab`), and
`GetAllocationSize` likewise returns the recorded size rather than the
unknown-size sentinel, refuting "state is Allocated ... under exactly that
same condition". -/
theorem zebra_c2_cex :
    (slabAt quarHeap 0).state = SlabState.kQuarantinedSlab ∧
    GetSlabIndex quarHeap 16 = some 0 ∧
    IsAllocated quarHeap 16 = true ∧
    GetAllocationSize quarHeap 16 = some 16 := by decide

/-- C2 (amended): `IsAllocated(p)` returns true if and only if `p` is
non-null and resolves to a slab whose state is not `Free` (i.e. `Allocated`
or `Quarantined`) and whose recorded block address exactly equals `p`; and
`GetAllocationSize(p)` returns the recorded `block_size` under exactly that
same condition, returning the unknown-size sentinel otherwise. -/
theorem zebra_c2_amended (h : ZebraBlockHeap) (p : Nat) :
    (IsAllocated h p = true ↔
      p ≠ 0 ∧
        ∃ i, GetSlabIndex h p = some i ∧
          (slabAt h i).state ≠ SlabState.kFreeSlab ∧
          (slabAt h i).info.block = p) ∧
    (IsAllocated h p = false → GetAllocationSize h p = none) ∧
    (∀ i, GetSlabIndex h p = some i → IsAllocated h p = true →
      GetAllocationSize h p = some (slabAt h i).info.block_size) := by
  refine ⟨?_, ?_, ?_⟩
  · unfold IsAllocated
    by_cases hp : p = 0
    · simp [hp]
    · rw [if_neg hp]
      cases hgi : GetSlabIndex h p with
      | none => simp
      | some i =>
        by_cases hs : (slabAt h i).state = SlabState.kFreeSlab
        · simp [hs, hp]
        · by_cases hb : (slabAt h i).info.block = p
          · simp [hs, hb, hp]
          · simp [hs, hb, hp]
  · intro hf
    unfold IsAllocated at hf
    unfold GetAllocationSize
    by_cases hp : p = 0
    · simp [hp]
    · rw [if_neg hp] at hf ⊢
      cases hgi : GetSlabIndex h p with
      | none => simp
      | some i =>
        rw [hgi] at hf
        by_cases hs : (slabAt h i).state = SlabState.kFreeSlab
        · simp [hs]
        · by_cases hb : (slabAt h i).info.block = p
          · simp [hs, hb] at hf
          · simp [hs, hb]
  · intro i hgi ht
    unfold IsAllocated at ht
    unfold GetAllocationSize
    by_cases hp : p = 0
    · simp [hp] at ht
    · rw [if_neg hp] at ht ⊢
      rw [hgi] at ht ⊢
      by_cases hs : (slabAt h i).state = SlabState.kFreeSlab
      · simp [hs] at ht
      · by_cases hb : (slabAt h i).info.block = p
        · simp [hs, hb]
        · simp [hs, hb] at ht

/-! ### C3: `Pop` -/

/-- A 100-slab heap (page size 16, region `[16, 3216)`) whose stored
quarantine ratio is the float `0.01f` (`10737418 · 2^-30`, scaled by
`2^149`), with exactly slab 0 quarantined (block address 16) and all other
slabs free. -/
def c3Heap : ZebraBlockHeap :=
  { pageSize := 16, shadowRatio := 8, heapAddress := 16
    heapSize := 3200, slabCount := 100
    slabInfo := (List.replicate 100 defaultSlabInfo).set 0
      ⟨SlabState.kQuarantinedSlab, ⟨16, 16, 0, 0, false⟩⟩
    quarantineRatio := 10737418 * 2 ^ 119
    freeSlabs := List.drop 1 (List.range 100)
    quarantine := [0] }

/-- C3 (counterexample): on `c3Heap` the quarantine is non-empty and the
exact rational quotient `1 / 100` strictly exceeds the stored ratio
`float(0.01) = 10737418 / 2^30`, so the claim (exact division) demands that
`Pop` succeed — but the program computes `float(1) / float(100)`, which
rounds to exactly `float(0.01)`, the invariant holds, and `Pop` fails,
leaving the heap unchanged. -/
theorem zebra_c3_cex :
    c3Heap.quarantine ≠ [] ∧
    ¬((c3Heap.quarantine.length : ℚ) / (c3Heap.slabCount : ℚ)
        ≤ (c3Heap.quarantineRatio : ℚ) / 2 ^ 149) ∧
    (Pop c3Heap).1 = none ∧ (Pop c3Heap).2 = c3Heap := by
  have hg : QuarantineInvariantIsSatisfied c3Heap = true := by decide
  refine ⟨by decide, ?_, ?_, ?_⟩
  · have h1 : c3Heap.quarantine.length = 1 := rfl
    have h2 : c3Heap.slabCount = 100 := rfl
    have h3 : c3Heap.quarantineRatio = 10737418 * 2 ^ 119 := rfl
    rw [h1, h2, h3]
    push_cast
    norm_num
  · unfold Pop
    rw [hg]
    rfl
  · unfold Pop
    rw [hg]
    rfl

/-- C3 (amended): `Pop` fails and leaves the quarantine queue and all slab
states unchanged if and only if the quarantine is empty or the binary32
quotient of quarantine occupancy by `slab_count` (both operands converted
to `float`, the quotient correctly rounded, as the source computes it) is
finite and at most the stored `float` `quarantine_ratio`; otherwise it
removes exactly the oldest (head) entry of the quarantine queue,
transitions that slab from `Quarantined` back to `Allocated`, and writes
that slab's stored descriptor to the output parameter. -/
theorem zebra_c3_amended (h : ZebraBlockHeap) :
    ((Pop h).1 = none ↔
      h.quarantine = [] ∨
        ∃ q, f32Div (natToF32 h.quarantine.length) (natToF32 h.slabCount)
          = some q ∧ q ≤ h.quarantineRatio) ∧
    ((Pop h).1 = none → (Pop h).2 = h) ∧
    (∀ i rest, h.quarantine = i :: rest →
      ¬(∃ q, f32Div (natToF32 h.quarantine.length) (natToF32 h.slabCount)
        = some q ∧ q ≤ h.quarantineRatio) →
      (slabAt h i).state = SlabState.kQuarantinedSlab →
      Pop h =
        (some (slabAt h i).info,
          { h with
            quarantine := rest
            slabInfo := h.slabInfo.set i
              ⟨SlabState.kAllocatedSlab, (slabAt h i).info⟩ })) := by
  refine ⟨?_, ?_, ?_⟩
  · by_cases hg : QuarantineInvariantIsSatisfied h = true
    · simp [Pop, hg, (quarantineInvariant_true_iff h).mp hg]
    · have hng := (not_iff_not.mpr (quarantineInvariant_true_iff h)).mp hg
      cases hq : h.quarantine with
      | nil => exact absurd ((quarantineInvariant_true_iff h).mpr (Or.inl hq)) hg
      | cons i rest =>
        rw [hq] at hng
        simp only [Pop, Bool.not_eq_true] at hg ⊢
        rw [hg, hq]
        simpa using hng
  · intro hn
    unfold Pop at hn ⊢
    by_cases hg : QuarantineInvariantIsSatisfied h = true
    · simp [hg]
    · simp only [Bool.not_eq_true] at hg
      rw [hg] at hn ⊢
      cases hq : h.quarantine with
      | nil => simp
      | cons i rest => rw [hq] at hn; simp at hn
  · intro i rest hq hr _hs
    have hg : QuarantineInvariantIsSatisfied h = false := by
      rw [Bool.eq_false_iff, Ne, quarantineInvariant_true_iff, hq]
      rw [hq] at hr
      simpa using hr
    unfold Pop
    rw [hg, hq]
    simp

/-! ### C4: `Allocate` -/

/-- `AllocateImpl` on a heap whose free-queue head is a valid slab index and
a request in `(0, page_size]`: pops the head and records the placed
allocation. -/
theorem AllocateImpl_success (h : ZebraBlockHeap) (bytes i : Nat) (rest : List Nat)
    (hq : h.freeSlabs = i :: rest) (h0 : bytes ≠ 0) (hle : bytes ≤ h.pageSize)
    (hi : i < h.slabCount) :
    AllocateImpl h bytes =
      (some i,
        { h with
          freeSlabs := rest
          slabInfo := h.slabInfo.set i
            ⟨SlabState.kAllocatedSlab,
              ⟨alignDown (slabBase h i + h.pageSize - bytes) h.shadowRatio,
                bytes, 0, 0, false⟩⟩ }) := by
  have hcond : ¬(bytes = 0 ∨ bytes > h.pageSize) := by
    push_neg
    exact ⟨h0, hle⟩
  have haddr : GetSlabAddress h i = slabBase h i := by
    unfold GetSlabAddress slabBase
    rw [if_neg (by omega)]
  unfold AllocateImpl
  rw [if_neg hcond, hq]
  simp only [haddr]

/-- `AllocateImpl` under any of the three failure conditions: no change. -/
theorem AllocateImpl_failure (h : ZebraBlockHeap) (bytes : Nat)
    (hc : bytes = 0 ∨ h.pageSize < bytes ∨ h.freeSlabs = []) :
    AllocateImpl h bytes = (none, h) := by
  unfold AllocateImpl
  by_cases hcc : bytes = 0 ∨ bytes > h.pageSize
  · rw [if_pos hcc]
  · rw [if_neg hcc]
    have hnil : h.freeSlabs = [] := by
      rcases hc with h0 | hgt | hnil
      · exact absurd (Or.inl h0) hcc
      · exact absurd (Or.inr hgt) hcc
      · exact hnil
    rw [hnil]

/-- `Allocate` on a heap whose free-queue head is a valid slab index and a
request in `(0, page_size]`: the returned address and the updated heap. -/
theorem Allocate_success (h : ZebraBlockHeap) (bytes i : Nat) (rest : List Nat)
    (hq : h.freeSlabs = i :: rest) (h0 : bytes ≠ 0) (hle : bytes ≤ h.pageSize)
    (hi : i < h.slabCount) (hlen : h.slabInfo.length = h.slabCount) :
    Allocate h bytes =
      (alignDown (slabBase h i + h.pageSize - bytes) h.shadowRatio,
        { h with
          freeSlabs := rest
          slabInfo := h.slabInfo.set i
            ⟨SlabState.kAllocatedSlab,
              ⟨alignDown (slabBase h i + h.pageSize - bytes) h.shadowRatio,
                bytes, 0, 0, false⟩⟩ }) := by
  unfold Allocate
  rw [AllocateImpl_success h bytes i rest hq h0 hle hi]
  unfold slabAt
  simp only
  rw [getD_set_self _ _ _ _ (by omega)]

/-- C4: `Allocate(bytes)` returns null (with no state change) if and only if
`bytes == 0`, or `bytes > page_size`, or the free-slab queue is empty;
otherwise it removes the head (FIFO) index from the free queue and returns
the address `slab_even_page_base + page_size − bytes` rounded down to the
nearest multiple of the shadow ratio, recording that slab's state as
`Allocated` with `block` = that address, `block_size = bytes`, header and
trailer sizes zero, and nested flag false. -/
theorem zebra_c4 (h : ZebraBlockHeap) (bytes : Nat)
    (hbase : 0 < h.heapAddress)
    (hsrb : h.shadowRatio ∣ h.heapAddress)
    (hsrp : h.shadowRatio ∣ h.pageSize)
    (hlen : h.slabInfo.length = h.slabCount)
    (hfree : ∀ j ∈ h.freeSlabs, j < h.slabCount) :
    ((Allocate h bytes).1 = 0 ↔
      bytes = 0 ∨ h.pageSize < bytes ∨ h.freeSlabs = []) ∧
    ((Allocate h bytes).1 = 0 → (Allocate h bytes).2 = h) ∧
    (∀ i rest, h.freeSlabs = i :: rest → bytes ≠ 0 → bytes ≤ h.pageSize →
      Allocate h bytes =
        (alignDown (slabBase h i + h.pageSize - bytes) h.shadowRatio,
          { h with
            freeSlabs := rest
            slabInfo := h.slabInfo.set i
              ⟨SlabState.kAllocatedSlab,
                ⟨alignDown (slabBase h i + h.pageSize - bytes) h.shadowRatio,
                  bytes, 0, 0, false⟩⟩ })) := by
  have hsuccess : ∀ i rest, h.freeSlabs = i :: rest → bytes ≠ 0 →
      bytes ≤ h.pageSize →
      Allocate h bytes =
        (alignDown (slabBase h i + h.pageSize - bytes) h.shadowRatio,
          { h with
            freeSlabs := rest
            slabInfo := h.slabInfo.set i
              ⟨SlabState.kAllocatedSlab,
                ⟨alignDown (slabBase h i + h.pageSize - bytes) h.shadowRatio,
                  bytes, 0, 0, false⟩⟩ }) :=
    fun i rest hq h0 hle =>
      Allocate_success h bytes i rest hq h0 hle
        (hfree i (hq ▸ List.mem_cons_self i rest)) hlen
  have hpos : ∀ i rest, h.freeSlabs = i :: rest → bytes ≠ 0 →
      bytes ≤ h.pageSize →
      0 < alignDown (slabBase h i + h.pageSize - bytes) h.shadowRatio := by
    intro i rest hq h0 hle
    have hdvd : h.shadowRatio ∣ slabBase h i := dvd_slabBase hsrb hsrp i
    have : slabBase h i + h.pageSize - bytes = slabBase h i + (h.pageSize - bytes) := by
      omega
    rw [this, alignDown_add_left hdvd]
    have : 0 < slabBase h i := by
      unfold slabBase
      omega
    omega
  refine ⟨?_, ?_, ?_⟩
  · constructor
    · intro hz
      by_contra hcon
      push_neg at hcon
      obtain ⟨h0, hle, hne⟩ := hcon
      cases hq : h.freeSlabs with
      | nil => exact hne hq
      | cons i rest =>
        rw [hsuccess i rest hq h0 hle] at hz
        have := hpos i rest hq h0 hle
        simp at hz
        omega
    · intro hcase
      unfold Allocate
      rw [AllocateImpl_failure h bytes hcase]
  · intro hz
    by_cases hcase : bytes = 0 ∨ h.pageSize < bytes ∨ h.freeSlabs = []
    · unfold Allocate
      rw [AllocateImpl_failure h bytes hcase]
    · push_neg at hcase
      obtain ⟨h0, hle, hne⟩ := hcase
      cases hq : h.freeSlabs with
      | nil => exact absurd hq hne
      | cons i rest =>
        rw [hsuccess i rest hq h0 hle] at hz
        have := hpos i rest hq h0 hle
        simp at hz
        omega
  · exact hsuccess

/-- A fresh two-slab heap (page size 16, shadow ratio 8, base address 16,
region `[16, 80)`, free queue `[0, 1]`, quarantine ratio the float `1.0`,
scaled). -/
def twoSlabHeap : ZebraBlockHeap := initHeap 64 16 16 8 (2 ^ 149)

/-- C4 (witness): the failure characterization of `zebra_c4` instantiated on
a fresh two-slab heap and a 9-byte request. -/
theorem zebra_c4_witness :
    (Allocate twoSlabHeap 9).1 = 0 ↔
      9 = 0 ∨ twoSlabHeap.pageSize < 9 ∨ twoSlabHeap.freeSlabs = [] :=
  (zebra_c4 twoSlabHeap 9 (by decide) (by decide) (by decide) (by decide)
    (by decide)).1

/-! ### C5: `Push` -/

/-- C5: `Push(descriptor)` succeeds if and only if the descriptor's block
address resolves to a slab whose state is currently `Allocated` and whose
stored descriptor is byte-for-byte equal to the supplied one; on success it
appends that slab's index to the tail of the quarantine queue and sets its
state to `Quarantined`; on failure it performs no state change at all. -/
theorem zebra_c5 (h : ZebraBlockHeap) (info : CompactBlockInfo) :
    ((Push h info).1 = true ↔
      ∃ i, GetSlabIndex h info.block = some i ∧
        (slabAt h i).state = SlabState.kAllocatedSlab ∧
        (slabAt h i).info = info) ∧
    ((Push h info).1 = false → (Push h info).2 = h) ∧
    (∀ i, GetSlabIndex h info.block = some i →
      (slabAt h i).state = SlabState.kAllocatedSlab →
      (slabAt h i).info = info →
      Push h info =
        (true,
          { h with
            quarantine := h.quarantine ++ [i]
            slabInfo := h.slabInfo.set i
              ⟨SlabState.kQuarantinedSlab, (slabAt h i).info⟩ })) := by
  refine ⟨?_, ?_, ?_⟩
  · unfold Push
    cases hgi : GetSlabIndex h info.block with
    | none => simp
    | some i =>
      by_cases hs : (slabAt h i).state = SlabState.kAllocatedSlab
      · by_cases hb : (slabAt h i).info = info
        · simp [hs, hb]
        · simp [hs, hb]
      · simp [hs]
  · intro hf
    unfold Push at hf ⊢
    cases hgi : GetSlabIndex h info.block with
    | none => simp
    | some i =>
      rw [hgi] at hf
      by_cases hs : (slabAt h i).state = SlabState.kAllocatedSlab
      · by_cases hb : (slabAt h i).info = info
        · simp [hs, hb] at hf
        · simp [hs, hb]
      · simp [hs]
  · intro i hgi hs hb
    unfold Push
    rw [hgi]
    simp [hs, hb]

/-! ### C6 and C7: `AllocateBlock` -/

theorem alignDown_of_dvd {k b : Nat} (hb : k ∣ b) : alignDown b k = b := by
  unfold alignDown
  obtain ⟨m, rfl⟩ := hb
  simp [Nat.mul_mod_right]

/-- C6 (amended): once the early redzone checks pass and the planner
returns a layout, `AllocateBlock` accepts the layout if and only if its
total block size equals exactly `2 × page_size` and the combined trailer
(`trailer_size + trailer_padding_size`, a `size_t` sum) is at least
`page_size` and exceeds `page_size` by strictly less than the shadow ratio;
on acceptance (given a free slab) it allocates one page via the byte
allocator, overwrites the slab descriptor's `block_size`, header and trailer
sizes with the planner's values, marks it non-nested, and returns the
block's start address (the recorded `info.block`, the slab base) aligned to
the addressability granularity — not the body start address, which lies
`header_size + header_padding_size` bytes further into the block; on any
failed check it returns null with no state change. -/
theorem zebra_c6_amended (h : ZebraBlockHeap) (planner : Planner)
    (size minL minR : Nat) (L : BlockLayout) (i : Nat) (rest : List Nat)
    (hearly1 : (minL + size) % U32 ≤ h.pageSize)
    (hearly2 : minR ≤ h.pageSize)
    (hplan : planner h.pageSize h.shadowRatio size minL
      (max h.pageSize minR) = some L)
    (hps : 0 < h.pageSize)
    (hsrb : h.shadowRatio ∣ h.heapAddress)
    (hsrp : h.shadowRatio ∣ h.pageSize)
    (hlen : h.slabInfo.length = h.slabCount)
    (hq : h.freeSlabs = i :: rest)
    (hi : i < h.slabCount) :
    (¬(L.block_size = slabSize h ∧
        h.pageSize ≤ (L.trailer_size + L.trailer_padding_size) % U32 ∧
        (L.trailer_size + L.trailer_padding_size) % U32 - h.pageSize
          < h.shadowRatio) →
      AllocateBlock h planner size minL minR = (0, h)) ∧
    (L.block_size = slabSize h →
      h.pageSize ≤ (L.trailer_size + L.trailer_padding_size) % U32 →
      (L.trailer_size + L.trailer_padding_size) % U32 - h.pageSize
        < h.shadowRatio →
      AllocateBlock h planner size minL minR =
        (slabBase h i,
          { h with
            freeSlabs := rest
            slabInfo := h.slabInfo.set i
              ⟨SlabState.kAllocatedSlab,
                ⟨slabBase h i, L.block_size,
                  (L.header_size + L.header_padding_size) % U32,
                  (L.trailer_size + L.trailer_padding_size) % U32,
                  false⟩⟩ }) ∧
        slabBase h i % h.shadowRatio = 0) := by
  have hdvd : h.shadowRatio ∣ slabBase h i := dvd_slabBase hsrb hsrp i
  have halign : alignDown (slabBase h i + h.pageSize - h.pageSize)
      h.shadowRatio = slabBase h i := by
    rw [Nat.add_sub_cancel]
    exact alignDown_of_dvd hdvd
  have h1 : ¬((minL + size) % U32 > h.pageSize) := by omega
  have h2 : ¬(minR > h.pageSize) := by omega
  constructor
  · intro hrej
    by_cases hbs : L.block_size = slabSize h
    · have hbs' : ¬(L.block_size ≠ slabSize h) := by simpa using hbs
      by_cases hlo : (L.trailer_size + L.trailer_padding_size) % U32
          < h.pageSize
      · simp only [AllocateBlock, if_neg h1, if_neg h2, hplan,
          if_neg hbs', if_pos hlo]
      · have hhi : (L.trailer_size + L.trailer_padding_size) % U32
            - h.pageSize ≥ h.shadowRatio := by omega
        simp only [AllocateBlock, if_neg h1, if_neg h2, hplan,
          if_neg hbs', if_neg hlo, if_pos hhi]
    · simp only [AllocateBlock, if_neg h1, if_neg h2, hplan,
        if_pos (show L.block_size ≠ slabSize h from hbs)]
  · intro hbs hlo hhi
    have hbs' : ¬(L.block_size ≠ slabSize h) := by simpa using hbs
    have hlo' : ¬((L.trailer_size + L.trailer_padding_size) % U32
        < h.pageSize) := by omega
    have hhi' : ¬((L.trailer_size + L.trailer_padding_size) % U32
        - h.pageSize ≥ h.shadowRatio) := by omega
    have himpl := AllocateImpl_success h h.pageSize i rest hq (by omega)
      le_rfl hi
    refine ⟨?_, ?_⟩
    · simp only [AllocateBlock, if_neg h1, if_neg h2, hplan,
        if_neg hbs', if_neg hlo', if_neg hhi', himpl, slabAt]
      rw [getD_set_self _ _ _ _ (by omega), List.set_set]
      simp only [halign, hbs]
    · obtain ⟨m, hm⟩ := hdvd
      rw [hm]
      exact Nat.mul_mod_right _ _

/-- The layout a cooperative planner returns for the witness heap:
total block size `32 = 2 × 16`, combined trailer `16 + 4 = 20`
(at least one page, exceeding it by `4 < 8`). -/
def exLayout : BlockLayout := ⟨8, 32, 4, 0, 8, 4, 16⟩

/-- A planner that always returns `exLayout`. -/
def exPlanner : Planner := fun _ _ _ _ _ => some exLayout

/-- C6 (counterexample): the address `AllocateBlock` returns is the
recorded block start (`info.block`, the slab base, here 16), not the
block's body start: the accepted layout records a combined header of 4
bytes, so the body begins at 20.  The claim's "returns the block's body
start address" is false of the code, which returns
`slab_info->info.block`. -/
theorem zebra_c6_cex :
    (AllocateBlock twoSlabHeap exPlanner 8 4 0).1 = 16 ∧
    (slabAt (AllocateBlock twoSlabHeap exPlanner 8 4 0).2 0).info.block
      = 16 ∧
    (slabAt (AllocateBlock twoSlabHeap exPlanner 8 4 0).2 0).info.header_size
      = 4 ∧
    (AllocateBlock twoSlabHeap exPlanner 8 4 0).1 ≠
      (slabAt (AllocateBlock twoSlabHeap exPlanner 8 4 0).2 0).info.block +
        (slabAt (AllocateBlock twoSlabHeap exPlanner 8 4 0).2
          0).info.header_size := by
  exact ⟨by decide, by decide, by decide, by decide⟩

/-- C6 (witness): `zebra_c6_amended` instantiated on the fresh two-slab heap
with `exPlanner`: the accepted layout yields the slab-0 base address `16`. -/
theorem zebra_c6_witness :
    AllocateBlock twoSlabHeap exPlanner 8 4 0 =
      (slabBase twoSlabHeap 0,
        { twoSlabHeap with
          freeSlabs := [1]
          slabInfo := twoSlabHeap.slabInfo.set 0
            ⟨SlabState.kAllocatedSlab,
              ⟨slabBase twoSlabHeap 0, exLayout.block_size,
                (exLayout.header_size + exLayout.header_padding_size) % U32,
                (exLayout.trailer_size + exLayout.trailer_padding_size) % U32,
                false⟩⟩ }) ∧
    slabBase twoSlabHeap 0 % twoSlabHeap.shadowRatio = 0 :=
  (zebra_c6_amended twoSlabHeap exPlanner 8 4 0 exLayout 0 [1] (by decide)
    (by decide) rfl (by decide) (by decide) (by decide) (by decide)
    (by decide) (by decide)).2 (by decide) (by decide) (by decide)

/-- C7 (counterexample): with `size = 2` and
`min_left_redzone_size = 2^32 - 1`, the exact sum exceeds the page size, yet
the `size_t` sum wraps to `1`, so the early rejection does not fire: the
planner is invoked and (with a cooperative planner and a free slab)
`AllocateBlock` returns a non-null address. -/
theorem zebra_c7_cex :
    twoSlabHeap.pageSize < U32 - 1 + 2 ∧
    AllocateBlockInvokesPlanner twoSlabHeap 2 (U32 - 1) 0 = true ∧
    (AllocateBlock twoSlabHeap exPlanner 2 (U32 - 1) 0).1 = 16 := by
  refine ⟨by decide, by decide, by decide⟩

/-- C7 (amended): for every `(size, min_left_redzone, min_right_redzone)`,
`AllocateBlock` returns null without invoking the layout planner whenever
`(min_left_redzone + size) mod 2^32 > page_size` or
`min_right_redzone > page_size` — the comparison is over wrapped `size_t`
machine arithmetic, so an overflowing sum can evade the early rejection. -/
theorem zebra_c7_amended (h : ZebraBlockHeap) (planner : Planner)
    (size minL minR : Nat)
    (hcond : h.pageSize < (minL + size) % U32 ∨ h.pageSize < minR) :
    AllocateBlock h planner size minL minR = (0, h) ∧
    AllocateBlockInvokesPlanner h size minL minR = false := by
  constructor
  · unfold AllocateBlock
    rcases hcond with hc | hc
    · rw [if_pos hc]
    · by_cases h1 : (minL + size) % U32 > h.pageSize
      · rw [if_pos h1]
      · rw [if_neg h1, if_pos hc]
  · unfold AllocateBlockInvokesPlanner
    rcases hcond with hc | hc
    · simp [Nat.not_le.mpr hc]
    · simp [Nat.not_le.mpr hc]

/-- C7 (witness): `zebra_c7_amended` instantiated at a 20-byte request with
no redzones on the 16-byte-page heap. -/
theorem zebra_c7_witness :
    AllocateBlock twoSlabHeap exPlanner 20 0 0 = (0, twoSlabHeap) ∧
    AllocateBlockInvokesPlanner twoSlabHeap 20 0 0 = false :=
  zebra_c7_amended twoSlabHeap exPlanner 20 0 0 (Or.inl (by decide))

/-! ### C8: `Empty` -/

theorem emptyGo_length (q : List Nat) (slabs : List SlabInfo)
    (acc : List CompactBlockInfo) :
    (emptyGo slabs q acc).1.length = slabs.length := by
  induction q generalizing slabs acc with
  | nil => rfl
  | cons i rest ih => simp [emptyGo, ih]

/-- Setting a slab's state (keeping its descriptor) never changes any
descriptor in the table. -/
theorem getD_set_state_info (slabs : List SlabInfo) (i j : Nat) (s : SlabState) :
    ((slabs.set i ⟨s, (slabs.getD i defaultSlabInfo).info⟩).getD j
      defaultSlabInfo).info = (slabs.getD j defaultSlabInfo).info := by
  by_cases hij : i = j
  · subst hij
    by_cases hi : i < slabs.length
    · rw [getD_set_self _ _ _ _ hi]
    · rw [List.getD_eq_default _ _ (by simp; omega),
        List.getD_eq_default _ _ (by omega)]
  · rw [getD_set_ne _ _ _ hij]

/-- The slab table after the `Empty` loop, pointwise: descriptors are
unchanged, and the state of a drained (in-table) index is `kAllocatedSlab`. -/
theorem emptyGo_slab (q : List Nat) (slabs : List SlabInfo)
    (acc : List CompactBlockInfo) (j : Nat) :
    ((emptyGo slabs q acc).1.getD j defaultSlabInfo).info
        = (slabs.getD j defaultSlabInfo).info ∧
    ((emptyGo slabs q acc).1.getD j defaultSlabInfo).state =
      (if j ∈ q ∧ j < slabs.length then SlabState.kAllocatedSlab
        else (slabs.getD j defaultSlabInfo).state) := by
  induction q generalizing slabs acc with
  | nil => simp [emptyGo]
  | cons i rest ih =>
    simp only [emptyGo]
    set slabs2 := slabs.set i
      ⟨SlabState.kAllocatedSlab, (slabs.getD i defaultSlabInfo).info⟩ with hs2
    have hlen2 : slabs2.length = slabs.length := by simp [hs2]
    obtain ⟨ihinfo, ihstate⟩ := ih slabs2 (acc ++ [(slabs.getD i defaultSlabInfo).info])
    constructor
    · rw [ihinfo, hs2, getD_set_state_info]
    · rw [ihstate, hlen2]
      by_cases hmem : j ∈ rest
      · by_cases hj : j < slabs.length
        · rw [if_pos ⟨hmem, hj⟩, if_pos ⟨List.mem_cons_of_mem i hmem, hj⟩]
        · rw [if_neg (by tauto), if_neg (by tauto)]
          by_cases hij : i = j
          · subst hij
            rw [hs2, List.getD_eq_default _ _ (by simp; omega),
              List.getD_eq_default _ _ (by omega)]
          · rw [hs2, getD_set_ne _ _ _ hij]
      · rw [if_neg (by tauto)]
        by_cases hij : i = j
        · subst hij
          by_cases hi : i < slabs.length
          · rw [hs2, getD_set_self _ _ _ _ hi,
              if_pos ⟨List.mem_cons_self i rest, hi⟩]
          · rw [if_neg (by tauto), hs2,
              List.getD_eq_default _ _ (by simp; omega),
              List.getD_eq_default _ _ (by omega)]
        · have : ¬(j ∈ i :: rest ∧ j < slabs.length) := by
            intro ⟨hm, _⟩
            rcases List.mem_cons.mp hm with h | h
            · exact hij h.symm
            · exact hmem h
          rw [if_neg this, hs2, getD_set_ne _ _ _ hij]

/-- The output vector of the `Empty` loop: the input descriptors in
quarantine (pop) order, appended to the accumulator. -/
theorem emptyGo_out (q : List Nat) (slabs : List SlabInfo)
    (acc : List CompactBlockInfo) :
    (emptyGo slabs q acc).2 =
      acc ++ q.map (fun i => (slabs.getD i defaultSlabInfo).info) := by
  induction q generalizing slabs acc with
  | nil => simp [emptyGo]
  | cons i rest ih =>
    simp only [emptyGo, List.map_cons]
    rw [ih]
    have hmap : rest.map (fun j =>
        ((slabs.set i ⟨SlabState.kAllocatedSlab,
          (slabs.getD i defaultSlabInfo).info⟩).getD j defaultSlabInfo).info)
        = rest.map (fun j => (slabs.getD j defaultSlabInfo).info) :=
      List.map_congr_left (fun j _ => getD_set_state_info slabs i j _)
    rw [hmap]
    simp

/-- C8: `Empty` drains every entry of the quarantine queue regardless of the
ratio: it transitions each drained slab's state to `Allocated` (leaving its
descriptor unchanged), appends each slab's descriptor to the output sequence
in original oldest-first (push) order, leaves slabs outside the quarantine
untouched, and afterwards `GetCount()` returns 0. -/
theorem zebra_c8 (h : ZebraBlockHeap) :
    (Empty h).2.quarantine = [] ∧
    GetCount (Empty h).2 = 0 ∧
    (Empty h).1 = h.quarantine.map (fun i => (slabAt h i).info) ∧
    (∀ i ∈ h.quarantine, i < h.slabInfo.length →
      (slabAt (Empty h).2 i).state = SlabState.kAllocatedSlab ∧
      (slabAt (Empty h).2 i).info = (slabAt h i).info) ∧
    (∀ j, j ∉ h.quarantine →
      (slabAt (Empty h).2 j).state = (slabAt h j).state ∧
      (slabAt (Empty h).2 j).info = (slabAt h j).info) := by
  refine ⟨rfl, rfl, ?_, ?_, ?_⟩
  · show (emptyGo h.slabInfo h.quarantine []).2 = _
    rw [emptyGo_out]
    rfl
  · intro i hm hi
    have key := emptyGo_slab h.quarantine h.slabInfo [] i
    constructor
    · show ((emptyGo h.slabInfo h.quarantine []).1.getD i
        defaultSlabInfo).state = _
      rw [key.2, if_pos ⟨hm, hi⟩]
    · exact key.1
  · intro j hm
    have key := emptyGo_slab h.quarantine h.slabInfo [] j
    constructor
    · show ((emptyGo h.slabInfo h.quarantine []).1.getD j
        defaultSlabInfo).state = _
      rw [key.2, if_neg (by tauto)]
      rfl
    · exact key.1

/-! ### C10: `Allocate` / `IsAllocated` / `GetAllocationSize` agreement -/

/-- C10: for every `bytes` with `0 < bytes ≤ page_size`, if `Allocate(bytes)`
returns a non-null pointer `p`, then immediately afterwards `IsAllocated(p)`
returns true and `GetAllocationSize(p)` returns exactly the requested
`bytes` (the original request, not a rounded value). -/
theorem zebra_c10 (h : ZebraBlockHeap) (bytes : Nat)
    (h0 : 0 < bytes) (hle : bytes ≤ h.pageSize)
    (hbase : 0 < h.heapAddress)
    (hsrb : h.shadowRatio ∣ h.heapAddress)
    (hsrp : h.shadowRatio ∣ h.pageSize)
    (hsize : h.heapSize = h.slabCount * slabSize h)
    (hlen : h.slabInfo.length = h.slabCount)
    (hfree : ∀ j ∈ h.freeSlabs, j < h.slabCount) :
    (Allocate h bytes).1 ≠ 0 →
      IsAllocated (Allocate h bytes).2 (Allocate h bytes).1 = true ∧
      GetAllocationSize (Allocate h bytes).2 (Allocate h bytes).1
        = some bytes := by
  cases hq : h.freeSlabs with
  | nil =>
    intro hnz
    exfalso
    unfold Allocate at hnz
    rw [AllocateImpl_failure h bytes (Or.inr (Or.inr hq))] at hnz
    exact hnz rfl
  | cons i rest =>
    intro _
    have hi : i < h.slabCount := hfree i (hq ▸ List.mem_cons_self i rest)
    have halloc := Allocate_success h bytes i rest hq (by omega) hle hi hlen
    rw [halloc]
    simp only
    set p := alignDown (slabBase h i + h.pageSize - bytes) h.shadowRatio
      with hp_def
    set h2 : ZebraBlockHeap :=
      { h with
        freeSlabs := rest
        slabInfo := h.slabInfo.set i
          ⟨SlabState.kAllocatedSlab, ⟨p, bytes, 0, 0, false⟩⟩ } with hh2
    have hdvd : h.shadowRatio ∣ slabBase h i := dvd_slabBase hsrb hsrp i
    have e0 : slabBase h i = h.heapAddress + i * slabSize h := rfl
    have e3 : slabSize h = 2 * h.pageSize := rfl
    have hr_le : alignDown (h.pageSize - bytes) h.shadowRatio
        ≤ h.pageSize - bytes := alignDown_le _ _
    have hp_eq : p = slabBase h i
        + alignDown (h.pageSize - bytes) h.shadowRatio := by
      rw [hp_def, show slabBase h i + h.pageSize - bytes
        = slabBase h i + (h.pageSize - bytes) by omega,
        alignDown_add_left hdvd]
    have e1 : (i + 1) * slabSize h = i * slabSize h + slabSize h := by ring
    have e2 : (i + 1) * slabSize h ≤ h.slabCount * slabSize h :=
      Nat.mul_le_mul_right _ (by omega)
    have hS : 0 < slabSize h := by omega
    have hlow : h.heapAddress ≤ p := by omega
    have hhigh : p < h.heapAddress + h.heapSize := by omega
    have hoff : p - h.heapAddress
        = i * slabSize h + alignDown (h.pageSize - bytes) h.shadowRatio := by
      omega
    have hsame1 : h2.heapAddress = h.heapAddress := rfl
    have hsame2 : slabSize h2 = slabSize h := rfl
    have hsame3 : h2.heapSize = h.heapSize := rfl
    have hgsi : GetSlabIndex h2 p = some i := by
      unfold GetSlabIndex
      rw [hsame1, hsame3, hsame2]
      rw [if_neg (by push_neg; exact ⟨by omega, by omega⟩)]
      rw [hoff, Nat.mul_comm,
        Nat.add_comm, Nat.add_mul_div_left _ _ hS,
        Nat.div_eq_of_lt (by omega)]
      simp
    have hslab : slabAt h2 i
        = ⟨SlabState.kAllocatedSlab, ⟨p, bytes, 0, 0, false⟩⟩ := by
      unfold slabAt
      rw [hh2]
      exact getD_set_self _ _ _ _ (by omega)
    have hpne : p ≠ 0 := by omega
    constructor
    · unfold IsAllocated
      rw [if_neg hpne, hgsi]
      simp [hslab]
    · unfold GetAllocationSize
      rw [if_neg hpne, hgsi]
      simp [hslab]

/-- C10 (witness): a ten-byte allocation from the fresh two-slab heap is
recognized by `IsAllocated` and sized by `GetAllocationSize`. -/
theorem zebra_c10_witness :
    IsAllocated (Allocate twoSlabHeap 10).2 (Allocate twoSlabHeap 10).1
      = true ∧
    GetAllocationSize (Allocate twoSlabHeap 10).2 (Allocate twoSlabHeap 10).1
      = some 10 :=
  zebra_c10 twoSlabHeap 10 (by decide) (by decide) (by decide) (by decide)
    (by decide) (by decide) (by decide) (by decide) (by decide)

/-! ### C9: the block-bounds invariant over reachable states

`FreeBlock` (which the source delegates to `Free` after a `DCHECK` that the
block address is non-null) is covered by the `free` step of the reachability
relations below. -/

/-- C9's per-slab property: a non-free slab's recorded block address is
non-null, lies within the slab's even (first) page, and
`block + block_size` does not extend past the slab's two-page byte range. -/
def SlabBoundsOk (h : ZebraBlockHeap) (i : Nat) : Prop :=
  (slabAt h i).state ≠ SlabState.kFreeSlab →
    (slabAt h i).info.block ≠ 0 ∧
    slabBase h i ≤ (slabAt h i).info.block ∧
    (slabAt h i).info.block < slabBase h i + h.pageSize ∧
    (slabAt h i).info.block + (slabAt h i).info.block_size
      ≤ slabBase h i + slabSize h

instance (h : ZebraBlockHeap) (i : Nat) : Decidable (SlabBoundsOk h i) := by
  unfold SlabBoundsOk
  infer_instance

/-- C9's heap invariant: every slab satisfies `SlabBoundsOk`. -/
def HeapInvariantC9 (h : ZebraBlockHeap) : Prop :=
  ∀ i, i < h.slabCount → SlabBoundsOk h i

instance (h : ZebraBlockHeap) : Decidable (HeapInvariantC9 h) := by
  unfold HeapInvariantC9
  infer_instance

/-- `AllocateImpl` on a non-empty free queue (no validity assumption on the
head index): the raw source computation with `GetSlabAddress`. -/
theorem AllocateImpl_cons (h : ZebraBlockHeap) (bytes i : Nat)
    (rest : List Nat) (hq : h.freeSlabs = i :: rest) (h0 : bytes ≠ 0)
    (hle : bytes ≤ h.pageSize) :
    AllocateImpl h bytes =
      (some i,
        { h with
          freeSlabs := rest
          slabInfo := h.slabInfo.set i
            ⟨SlabState.kAllocatedSlab,
              ⟨alignDown (GetSlabAddress h i + h.pageSize - bytes)
                h.shadowRatio, bytes, 0, 0, false⟩⟩ }) := by
  unfold AllocateImpl
  rw [if_neg (by push_neg; exact ⟨h0, hle⟩), hq]

/-- Every run of `Allocate` either leaves the heap unchanged or pops the
free-queue head and records the placed allocation there. -/
theorem Allocate_result (h : ZebraBlockHeap) (bytes : Nat) :
    (Allocate h bytes).2 = h ∨
    ∃ i rest, h.freeSlabs = i :: rest ∧ bytes ≠ 0 ∧ bytes ≤ h.pageSize ∧
      (Allocate h bytes).2 =
        { h with
          freeSlabs := rest
          slabInfo := h.slabInfo.set i
            ⟨SlabState.kAllocatedSlab,
              ⟨alignDown (GetSlabAddress h i + h.pageSize - bytes)
                h.shadowRatio, bytes, 0, 0, false⟩⟩ } := by
  by_cases hc : bytes = 0 ∨ h.pageSize < bytes ∨ h.freeSlabs = []
  · left
    unfold Allocate
    rw [AllocateImpl_failure h bytes hc]
  · right
    push_neg at hc
    obtain ⟨h0, hle, hne⟩ := hc
    cases hq : h.freeSlabs with
    | nil => exact absurd hq hne
    | cons i rest =>
      refine ⟨i, rest, rfl, h0, hle, ?_⟩
      unfold Allocate
      rw [AllocateImpl_cons h bytes i rest hq h0 hle]

/-- Every run of `Free` either leaves the heap unchanged or frees a resolved
slab whose recorded block address matched and whose state was not `Free`. -/
theorem Free_result (h : ZebraBlockHeap) (alloc : Nat) :
    (Free h alloc).2 = h ∨
    ∃ i, GetSlabIndex h alloc = some i ∧ alloc ≠ 0 ∧
      (slabAt h i).info.block = alloc ∧
      (slabAt h i).state ≠ SlabState.kFreeSlab ∧
      (Free h alloc).2 =
        { h with
          slabInfo := h.slabInfo.set i ⟨SlabState.kFreeSlab, zeroInfo⟩
          freeSlabs := h.freeSlabs ++ [i] } := by
  unfold Free
  by_cases ha : alloc = 0
  · left
    rw [if_pos ha]
  rw [if_neg ha]
  cases hgi : GetSlabIndex h alloc with
  | none => left; rfl
  | some i =>
    by_cases hb : (slabAt h i).info.block = alloc
    · by_cases hs : (slabAt h i).state = SlabState.kFreeSlab
      · left
        simp [hb, hs]
      · right
        exact ⟨i, rfl, ha, hb, hs, by simp [hb, hs]⟩
    · left
      simp [hb]

/-- Every run of `Push` either leaves the heap unchanged or quarantines the
resolved, currently-allocated, descriptor-matching slab. -/
theorem Push_result (h : ZebraBlockHeap) (info : CompactBlockInfo) :
    (Push h info).2 = h ∨
    ∃ i, GetSlabIndex h info.block = some i ∧
      (slabAt h i).state = SlabState.kAllocatedSlab ∧
      (slabAt h i).info = info ∧
      (Push h info).2 =
        { h with
          quarantine := h.quarantine ++ [i]
          slabInfo := h.slabInfo.set i
            ⟨SlabState.kQuarantinedSlab, (slabAt h i).info⟩ } := by
  unfold Push
  cases hgi : GetSlabIndex h info.block with
  | none => left; rfl
  | some i =>
    by_cases hs : (slabAt h i).state = SlabState.kAllocatedSlab
    · by_cases hb : (slabAt h i).info = info
      · right
        exact ⟨i, rfl, hs, hb, by simp [hs, hb]⟩
      · left
        simp [hs, hb]
    · left
      simp [hs]

/-- Every run of `Pop` either leaves the heap unchanged or (when the ratio
invariant fails) releases the quarantine head back to `kAllocatedSlab`. -/
theorem Pop_result (h : ZebraBlockHeap) :
    (Pop h).2 = h ∨
    ∃ i rest, h.quarantine = i :: rest ∧
      QuarantineInvariantIsSatisfied h = false ∧
      (Pop h).2 =
        { h with
          quarantine := rest
          slabInfo := h.slabInfo.set i
            ⟨SlabState.kAllocatedSlab, (slabAt h i).info⟩ } := by
  unfold Pop
  by_cases hg : QuarantineInvariantIsSatisfied h = true
  · left
    rw [hg]
    rfl
  · simp only [Bool.not_eq_true] at hg
    rw [hg]
    cases hq : h.quarantine with
    | nil => left; rfl
    | cons i rest =>
      right
      exact ⟨i, rest, rfl, rfl, rfl⟩

/-- Every run of `AllocateBlock` either leaves the heap unchanged or pops
the free-queue head and records a whole-slab block there with the planner's
layout sizes. -/
theorem AllocateBlock_result (h : ZebraBlockHeap) (planner : Planner)
    (size minL minR : Nat) :
    (AllocateBlock h planner size minL minR).2 = h ∨
    ∃ i rest L,
      planner h.pageSize h.shadowRatio size minL (max h.pageSize minR)
        = some L ∧
      h.freeSlabs = i :: rest ∧
      L.block_size = slabSize h ∧
      0 < h.pageSize ∧
      (AllocateBlock h planner size minL minR).2 =
        { h with
          freeSlabs := rest
          slabInfo := h.slabInfo.set i
            ⟨SlabState.kAllocatedSlab,
              ⟨alignDown (GetSlabAddress h i + h.pageSize - h.pageSize)
                  h.shadowRatio,
                L.block_size,
                (L.header_size + L.header_padding_size) % U32,
                (L.trailer_size + L.trailer_padding_size) % U32,
                false⟩⟩ } := by
  by_cases h1 : (minL + size) % U32 > h.pageSize
  · left
    unfold AllocateBlock
    rw [if_pos h1]
  by_cases h2 : minR > h.pageSize
  · left
    unfold AllocateBlock
    rw [if_neg h1, if_pos h2]
  cases hplan : planner h.pageSize h.shadowRatio size minL
      (max h.pageSize minR) with
  | none =>
    left
    unfold AllocateBlock
    rw [if_neg h1, if_neg h2, hplan]
  | some L =>
    by_cases hbs : L.block_size ≠ slabSize h
    · left
      unfold AllocateBlock
      rw [if_neg h1, if_neg h2, hplan]
      simp only [if_pos hbs]
    by_cases hlo : (L.trailer_size + L.trailer_padding_size) % U32
        < h.pageSize
    · left
      unfold AllocateBlock
      rw [if_neg h1, if_neg h2, hplan]
      simp only [if_neg hbs, if_pos hlo]
    by_cases hhi : (L.trailer_size + L.trailer_padding_size) % U32
        - h.pageSize ≥ h.shadowRatio
    · left
      unfold AllocateBlock
      rw [if_neg h1, if_neg h2, hplan]
      simp only [if_neg hbs, if_neg hlo, if_pos hhi]
    by_cases hps : h.pageSize = 0
    · left
      unfold AllocateBlock
      rw [if_neg h1, if_neg h2, hplan]
      simp only [if_neg hbs, if_neg hlo, if_neg hhi,
        AllocateImpl_failure h h.pageSize (Or.inl hps)]
    cases hq : h.freeSlabs with
    | nil =>
      left
      unfold AllocateBlock
      rw [if_neg h1, if_neg h2, hplan]
      simp only [if_neg hbs, if_neg hlo, if_neg hhi,
        AllocateImpl_failure h h.pageSize (Or.inr (Or.inr hq))]
    | cons i rest =>
      right
      refine ⟨i, rest, L, rfl, rfl, by simpa using hbs, by omega, ?_⟩
      unfold AllocateBlock
      rw [if_neg h1, if_neg h2, hplan]
      simp only [if_neg hbs, if_neg hlo, if_neg hhi,
        AllocateImpl_cons h h.pageSize i rest hq hps le_rfl]
      unfold slabAt
      by_cases hilen : i < h.slabInfo.length
      · rw [getD_set_self _ _ _ _ hilen, List.set_set]
      · -- out-of-table head index: both `set`s are no-ops, the heaps agree
        have hlge : h.slabInfo.length ≤ i := by omega
        have e1 : (h.slabInfo.set i
            ⟨SlabState.kAllocatedSlab,
              ⟨alignDown (GetSlabAddress h i + h.pageSize - h.pageSize)
                h.shadowRatio, h.pageSize, 0, 0, false⟩⟩) = h.slabInfo :=
          List.set_eq_of_length_le hlge
        rw [e1, List.set_eq_of_length_le hlge,
          List.set_eq_of_length_le hlge]

/-- The strengthened inductive invariant of a `ZebraBlockHeap`: well-formed
construction parameters, consistent table sizes, both index queues hold
distinct in-range indices whose slab states agree with queue membership, and
every slab satisfies the C9 bounds. -/
structure GoodHeap (h : ZebraBlockHeap) : Prop where
  base_pos : 0 < h.heapAddress
  ps_pos : 0 < h.pageSize
  sr_pos : 0 < h.shadowRatio
  ps_dvd_base : h.pageSize ∣ h.heapAddress
  sr_dvd_ps : h.shadowRatio ∣ h.pageSize
  size_eq : h.heapSize = h.slabCount * slabSize h
  len_eq : h.slabInfo.length = h.slabCount
  free_mem : ∀ i ∈ h.freeSlabs,
    i < h.slabCount ∧ (slabAt h i).state = SlabState.kFreeSlab
  quar_mem : ∀ i ∈ h.quarantine,
    i < h.slabCount ∧ (slabAt h i).state = SlabState.kQuarantinedSlab
  free_nodup : h.freeSlabs.Nodup
  quar_nodup : h.quarantine.Nodup
  bounds : ∀ i, i < h.slabCount → SlabBoundsOk h i

theorem GoodHeap.sr_dvd_base {h : ZebraBlockHeap} (hg : GoodHeap h) :
    h.shadowRatio ∣ h.heapAddress :=
  dvd_trans hg.sr_dvd_ps hg.ps_dvd_base

theorem getD_replicate (n i : Nat) (a d : SlabInfo) (hi : i < n) :
    (List.replicate n a).getD i d = a := by
  rw [List.getD_eq_getElem?_getD, List.getElem?_replicate, if_pos hi]
  rfl

/-- The freshly constructed heap satisfies the invariant. -/
theorem goodHeap_init (heap_size heapAddress pageSize shadowRatio : Nat)
    (r : Nat) (hbase : 0 < heapAddress) (hps : 0 < pageSize)
    (hsr : 0 < shadowRatio) (hpb : pageSize ∣ heapAddress)
    (hsp : shadowRatio ∣ pageSize) :
    GoodHeap (initHeap heap_size heapAddress pageSize shadowRatio r) := by
  set h := initHeap heap_size heapAddress pageSize shadowRatio r with hh
  have hS : 0 < 2 * pageSize := by omega
  have hfields : h.pageSize = pageSize ∧ h.shadowRatio = shadowRatio ∧
      h.heapAddress = heapAddress ∧
      h.heapSize = alignUp heap_size (2 * pageSize) ∧
      h.slabCount = alignUp heap_size (2 * pageSize) / (2 * pageSize) ∧
      h.slabInfo = List.replicate h.slabCount defaultSlabInfo ∧
      h.freeSlabs = List.range h.slabCount ∧
      h.quarantine = [] := by
    refine ⟨rfl, rfl, rfl, rfl, rfl, rfl, rfl, rfl⟩
  obtain ⟨f1, f2, f3, f4, f5, f6, f7, f8⟩ := hfields
  have hstate : ∀ i, (slabAt h i).state = SlabState.kFreeSlab := by
    intro i
    unfold slabAt
    rw [f6]
    by_cases hi : i < h.slabCount
    · rw [getD_replicate _ _ _ _ hi]
      rfl
    · rw [List.getD_eq_default _ _ (by simp; omega)]
      rfl
  refine ⟨by omega, by omega, by omega, by rw [f1, f3]; exact hpb,
    by rw [f2, f1]; exact hsp, ?_, ?_, ?_, ?_, ?_, ?_, ?_⟩
  · show h.heapSize = h.slabCount * slabSize h
    have hslab : slabSize h = 2 * pageSize := by
      unfold slabSize
      rw [f1]
    rw [f4, f5, hslab]
    unfold alignUp
    rw [Nat.mul_div_cancel _ hS]
  · rw [f6, List.length_replicate]
  · intro i hi
    rw [f7] at hi
    exact ⟨List.mem_range.mp hi, hstate i⟩
  · intro i hi
    rw [f8] at hi
    exact absurd hi (List.not_mem_nil i)
  · rw [f7]
    exact List.nodup_range _
  · rw [f8]
    exact List.nodup_nil
  · intro i _
    unfold SlabBoundsOk
    intro habs
    exact absurd (hstate i) habs

/-- Popping the free-queue head and installing an in-bounds allocated slab
there preserves the invariant. -/
theorem goodHeap_alloc_set (h : ZebraBlockHeap) (hg : GoodHeap h)
    (i : Nat) (rest : List Nat) (hq : h.freeSlabs = i :: rest)
    (inf : CompactBlockInfo)
    (hb1 : inf.block ≠ 0) (hb2 : slabBase h i ≤ inf.block)
    (hb3 : inf.block < slabBase h i + h.pageSize)
    (hb4 : inf.block + inf.block_size ≤ slabBase h i + slabSize h) :
    GoodHeap
      { h with
        freeSlabs := rest
        slabInfo := h.slabInfo.set i ⟨SlabState.kAllocatedSlab, inf⟩ } := by
  set h2 : ZebraBlockHeap :=
    { h with
      freeSlabs := rest
      slabInfo := h.slabInfo.set i ⟨SlabState.kAllocatedSlab, inf⟩ } with hh2
  obtain ⟨hi, hstate⟩ := hg.free_mem i (hq ▸ List.mem_cons_self i rest)
  have hnodup : h.freeSlabs.Nodup := hg.free_nodup
  have hinot : i ∉ rest := by
    rw [hq] at hnodup
    exact (List.nodup_cons.mp hnodup).1
  have hlen2 : h2.slabInfo.length = h.slabInfo.length := by
    rw [hh2]
    exact List.length_set _ _ _
  have hslabAt_ne : ∀ j, j ≠ i → slabAt h2 j = slabAt h j := by
    intro j hj
    unfold slabAt
    rw [hh2]
    exact getD_set_ne _ _ _ (fun he => hj he.symm)
  have hslabAt_i : slabAt h2 i = ⟨SlabState.kAllocatedSlab, inf⟩ := by
    unfold slabAt
    rw [hh2]
    exact getD_set_self _ _ _ _ (by rw [hg.len_eq]; omega)
  refine ⟨hg.base_pos, hg.ps_pos, hg.sr_pos, hg.ps_dvd_base, hg.sr_dvd_ps,
    hg.size_eq, by rw [hlen2, hg.len_eq], ?_, ?_, ?_, ?_, ?_⟩
  · intro j hj
    have hjmem : j ∈ h.freeSlabs := by
      rw [hq]
      exact List.mem_cons_of_mem i hj
    have hji : j ≠ i := fun he => hinot (he ▸ hj)
    rw [hslabAt_ne j hji]
    exact hg.free_mem j hjmem
  · intro j hj
    have hji : j ≠ i := by
      intro he
      have := (hg.quar_mem j hj).2
      rw [he] at this
      rw [this] at hstate
      exact SlabState.noConfusion hstate
    rw [hslabAt_ne j hji]
    exact hg.quar_mem j hj
  · have := hg.free_nodup
    rw [hq] at this
    exact (List.nodup_cons.mp this).2
  · exact hg.quar_nodup
  · intro j hj
    unfold SlabBoundsOk
    by_cases hji : j = i
    · subst hji
      rw [hslabAt_i]
      intro _
      exact ⟨hb1, hb2, hb3, hb4⟩
    · rw [hslabAt_ne j hji]
      exact hg.bounds j hj

/-- A `GetSlabIndex` hit is an in-range slab index (on a heap whose region
size is `slab_count · slab_size`). -/
theorem getSlabIndex_lt (h : ZebraBlockHeap) (a i : Nat)
    (hgi : GetSlabIndex h a = some i)
    (hsize : h.heapSize = h.slabCount * slabSize h) :
    i < h.slabCount := by
  unfold GetSlabIndex at hgi
  by_cases hc : a < h.heapAddress ∨ a ≥ h.heapAddress + h.heapSize
  · rw [if_pos hc] at hgi
    exact Option.noConfusion hgi
  · rw [if_neg hc] at hgi
    injection hgi with hgi
    push_neg at hc
    subst hgi
    have hcomm : slabSize h * h.slabCount = h.slabCount * slabSize h :=
      Nat.mul_comm _ _
    exact Nat.div_lt_of_lt_mul (by omega)

/-- Transfer of the C9 bounds along a step that keeps the descriptor and
cannot un-free a slab. -/
theorem slabBoundsOk_of (h h2 : ZebraBlockHeap) (i : Nat)
    (hps : h2.pageSize = h.pageSize)
    (hbase : h2.heapAddress = h.heapAddress)
    (hinfo : (slabAt h2 i).info = (slabAt h i).info)
    (hstate : (slabAt h2 i).state ≠ SlabState.kFreeSlab →
      (slabAt h i).state ≠ SlabState.kFreeSlab)
    (hold : SlabBoundsOk h i) : SlabBoundsOk h2 i := by
  unfold SlabBoundsOk at hold ⊢
  intro hne
  have hob := hold (hstate hne)
  have hsb : slabBase h2 i = slabBase h i := by
    unfold slabBase slabSize
    rw [hbase, hps]
  have hss : slabSize h2 = slabSize h := by
    unfold slabSize
    rw [hps]
  rw [hinfo, hsb, hps, hss]
  exact hob

/-- `Allocate` preserves the invariant. -/
theorem goodHeap_allocate (h : ZebraBlockHeap) (hg : GoodHeap h)
    (bytes : Nat) : GoodHeap (Allocate h bytes).2 := by
  rcases Allocate_result h bytes with heq | ⟨i, rest, hq, h0, hle, heq⟩
  · rw [heq]
    exact hg
  · rw [heq]
    have hi : i < h.slabCount :=
      (hg.free_mem i (hq ▸ List.mem_cons_self i rest)).1
    have haddr : GetSlabAddress h i = slabBase h i := by
      unfold GetSlabAddress slabBase
      rw [if_neg (by omega)]
    have hdvd : h.shadowRatio ∣ slabBase h i :=
      dvd_slabBase hg.sr_dvd_base hg.sr_dvd_ps i
    have hp : alignDown (slabBase h i + h.pageSize - bytes) h.shadowRatio
        = slabBase h i + alignDown (h.pageSize - bytes) h.shadowRatio := by
      rw [show slabBase h i + h.pageSize - bytes
        = slabBase h i + (h.pageSize - bytes) by omega,
        alignDown_add_left hdvd]
    have hr := alignDown_le (h.pageSize - bytes) h.shadowRatio
    have hbp : 0 < slabBase h i := by
      unfold slabBase
      have := hg.base_pos
      omega
    have e3 : slabSize h = 2 * h.pageSize := rfl
    apply goodHeap_alloc_set h hg i rest hq
    · show alignDown (GetSlabAddress h i + h.pageSize - bytes)
        h.shadowRatio ≠ 0
      rw [haddr, hp]
      omega
    · show slabBase h i ≤ alignDown (GetSlabAddress h i + h.pageSize - bytes)
        h.shadowRatio
      rw [haddr, hp]
      omega
    · show alignDown (GetSlabAddress h i + h.pageSize - bytes) h.shadowRatio
        < slabBase h i + h.pageSize
      rw [haddr, hp]
      omega
    · show alignDown (GetSlabAddress h i + h.pageSize - bytes) h.shadowRatio
        + bytes ≤ slabBase h i + slabSize h
      rw [haddr, hp]
      omega

/-- `AllocateBlock` preserves the invariant. -/
theorem goodHeap_allocateBlock (h : ZebraBlockHeap) (hg : GoodHeap h)
    (planner : Planner) (size minL minR : Nat) :
    GoodHeap (AllocateBlock h planner size minL minR).2 := by
  rcases AllocateBlock_result h planner size minL minR with
    heq | ⟨i, rest, L, _hplan, hq, hbs, hps, heq⟩
  · rw [heq]
    exact hg
  · rw [heq]
    have hi : i < h.slabCount :=
      (hg.free_mem i (hq ▸ List.mem_cons_self i rest)).1
    have haddr : GetSlabAddress h i = slabBase h i := by
      unfold GetSlabAddress slabBase
      rw [if_neg (by omega)]
    have halign : alignDown (GetSlabAddress h i + h.pageSize - h.pageSize)
        h.shadowRatio = slabBase h i := by
      rw [haddr, Nat.add_sub_cancel]
      exact alignDown_of_dvd (dvd_slabBase hg.sr_dvd_base hg.sr_dvd_ps i)
    have hbp : 0 < slabBase h i := by
      unfold slabBase
      have := hg.base_pos
      omega
    have e3 : slabSize h = 2 * h.pageSize := rfl
    apply goodHeap_alloc_set h hg i rest hq
    · show alignDown (GetSlabAddress h i + h.pageSize - h.pageSize)
        h.shadowRatio ≠ 0
      rw [halign]
      omega
    · show slabBase h i ≤ alignDown
        (GetSlabAddress h i + h.pageSize - h.pageSize) h.shadowRatio
      rw [halign]
    · show alignDown (GetSlabAddress h i + h.pageSize - h.pageSize)
        h.shadowRatio < slabBase h i + h.pageSize
      rw [halign]
      omega
    · show alignDown (GetSlabAddress h i + h.pageSize - h.pageSize)
        h.shadowRatio + L.block_size ≤ slabBase h i + slabSize h
      rw [halign, hbs]

/-- The debug assertion of `Free`
(`DCHECK_NE(kQuarantinedSlab, slab_info_[slab_index].state)`): the pointer
being freed must not belong to a currently quarantined slab. -/
def FreeSafe (h : ZebraBlockHeap) (alloc : Nat) : Prop :=
  ∀ i, GetSlabIndex h alloc = some i →
    (slabAt h i).info.block = alloc →
    (slabAt h i).state ≠ SlabState.kQuarantinedSlab

/-- `Free` preserves the invariant when its debug assertion holds. -/
theorem goodHeap_free (h : ZebraBlockHeap) (hg : GoodHeap h) (alloc : Nat)
    (hsafe : FreeSafe h alloc) : GoodHeap (Free h alloc).2 := by
  rcases Free_result h alloc with heq | ⟨i, hgi, _ha, hb, hs, heq⟩
  · rw [heq]
    exact hg
  · rw [heq]
    have e3 : slabSize h = 2 * h.pageSize := rfl
    have hi : i < h.slabCount :=
      getSlabIndex_lt h alloc i hgi hg.size_eq
    have hstate : (slabAt h i).state = SlabState.kAllocatedSlab := by
      cases hst : (slabAt h i).state with
      | kFreeSlab => exact absurd hst hs
      | kAllocatedSlab => rfl
      | kQuarantinedSlab => exact absurd hst (hsafe i hgi hb)
    have hnotfree : i ∉ h.freeSlabs := fun hmem => by
      have := (hg.free_mem i hmem).2
      rw [this] at hstate
      exact SlabState.noConfusion hstate
    have hnotquar : i ∉ h.quarantine := fun hmem => by
      have := (hg.quar_mem i hmem).2
      rw [this] at hstate
      exact SlabState.noConfusion hstate
    set h2 : ZebraBlockHeap :=
      { h with
        slabInfo := h.slabInfo.set i ⟨SlabState.kFreeSlab, zeroInfo⟩
        freeSlabs := h.freeSlabs ++ [i] } with hh2
    have hslabAt_ne : ∀ j, j ≠ i → slabAt h2 j = slabAt h j := by
      intro j hj
      unfold slabAt
      rw [hh2]
      exact getD_set_ne _ _ _ (fun he => hj he.symm)
    have hslabAt_i : slabAt h2 i = ⟨SlabState.kFreeSlab, zeroInfo⟩ := by
      unfold slabAt
      rw [hh2]
      exact getD_set_self _ _ _ _ (by rw [hg.len_eq]; omega)
    refine ⟨hg.base_pos, hg.ps_pos, hg.sr_pos, hg.ps_dvd_base, hg.sr_dvd_ps,
      hg.size_eq, by rw [hh2]; simp [hg.len_eq], ?_, ?_, ?_, ?_, ?_⟩
    · intro j hj
      rcases List.mem_append.mp hj with hold | hnew
      · have hji : j ≠ i := fun he => hnotfree (he ▸ hold)
        rw [hslabAt_ne j hji]
        exact hg.free_mem j hold
      · have hji : j = i := List.mem_singleton.mp hnew
        subst hji
        rw [hslabAt_i]
        exact ⟨hi, rfl⟩
    · intro j hj
      have hji : j ≠ i := fun he => hnotquar (he ▸ hj)
      rw [hslabAt_ne j hji]
      exact hg.quar_mem j hj
    · exact List.Nodup.append hg.free_nodup (List.nodup_singleton i)
        (fun a hmem hmem2 => hnotfree ((List.mem_singleton.mp hmem2) ▸ hmem))
    · exact hg.quar_nodup
    · intro j hj
      by_cases hji : j = i
      · subst hji
        unfold SlabBoundsOk
        rw [hslabAt_i]
        intro habs
        exact absurd rfl habs
      · exact slabBoundsOk_of h h2 j rfl rfl (by rw [hslabAt_ne j hji])
          (by rw [hslabAt_ne j hji]; exact id) (hg.bounds j hj)

/-- `Push` preserves the invariant. -/
theorem goodHeap_push (h : ZebraBlockHeap) (hg : GoodHeap h)
    (info : CompactBlockInfo) : GoodHeap (Push h info).2 := by
  rcases Push_result h info with heq | ⟨i, hgi, hs, _hbinfo, heq⟩
  · rw [heq]
    exact hg
  · rw [heq]
    have hi : i < h.slabCount :=
      getSlabIndex_lt h info.block i hgi hg.size_eq
    have hnotfree : i ∉ h.freeSlabs := fun hmem => by
      have := (hg.free_mem i hmem).2
      rw [this] at hs
      exact SlabState.noConfusion hs
    have hnotquar : i ∉ h.quarantine := fun hmem => by
      have := (hg.quar_mem i hmem).2
      rw [this] at hs
      exact SlabState.noConfusion hs
    set h2 : ZebraBlockHeap :=
      { h with
        quarantine := h.quarantine ++ [i]
        slabInfo := h.slabInfo.set i
          ⟨SlabState.kQuarantinedSlab, (slabAt h i).info⟩ } with hh2
    have hslabAt_ne : ∀ j, j ≠ i → slabAt h2 j = slabAt h j := by
      intro j hj
      unfold slabAt
      rw [hh2]
      exact getD_set_ne _ _ _ (fun he => hj he.symm)
    have hslabAt_i : slabAt h2 i
        = ⟨SlabState.kQuarantinedSlab, (slabAt h i).info⟩ := by
      unfold slabAt
      rw [hh2]
      exact getD_set_self _ _ _ _ (by rw [hg.len_eq]; omega)
    refine ⟨hg.base_pos, hg.ps_pos, hg.sr_pos, hg.ps_dvd_base, hg.sr_dvd_ps,
      hg.size_eq, by rw [hh2]; simp [hg.len_eq], ?_, ?_, ?_, ?_, ?_⟩
    · intro j hj
      have hji : j ≠ i := fun he => hnotfree (he ▸ hj)
      rw [hslabAt_ne j hji]
      exact hg.free_mem j hj
    · intro j hj
      rcases List.mem_append.mp hj with hold | hnew
      · have hji : j ≠ i := fun he => hnotquar (he ▸ hold)
        rw [hslabAt_ne j hji]
        exact hg.quar_mem j hold
      · have hji : j = i := List.mem_singleton.mp hnew
        subst hji
        rw [hslabAt_i]
        exact ⟨hi, rfl⟩
    · exact hg.free_nodup
    · exact List.Nodup.append hg.quar_nodup (List.nodup_singleton i)
        (fun a hmem hmem2 => hnotquar ((List.mem_singleton.mp hmem2) ▸ hmem))
    · intro j hj
      by_cases hji : j = i
      · subst hji
        refine slabBoundsOk_of h h2 j rfl rfl (by rw [hslabAt_i]) ?_
          (hg.bounds j hj)
        intro _
        rw [hs]
        exact SlabState.noConfusion
      · exact slabBoundsOk_of h h2 j rfl rfl (by rw [hslabAt_ne j hji])
          (by rw [hslabAt_ne j hji]; exact id) (hg.bounds j hj)

/-- `Pop` preserves the invariant. -/
theorem goodHeap_pop (h : ZebraBlockHeap) (hg : GoodHeap h) :
    GoodHeap (Pop h).2 := by
  rcases Pop_result h with heq | ⟨i, rest, hq, _hginv, heq⟩
  · rw [heq]
    exact hg
  · rw [heq]
    obtain ⟨hi, hstate⟩ := hg.quar_mem i (hq ▸ List.mem_cons_self i rest)
    have hnodup := hg.quar_nodup
    have hinot : i ∉ rest := by
      rw [hq] at hnodup
      exact (List.nodup_cons.mp hnodup).1
    have hnotfree : i ∉ h.freeSlabs := fun hmem => by
      have := (hg.free_mem i hmem).2
      rw [this] at hstate
      exact SlabState.noConfusion hstate
    set h2 : ZebraBlockHeap :=
      { h with
        quarantine := rest
        slabInfo := h.slabInfo.set i
          ⟨SlabState.kAllocatedSlab, (slabAt h i).info⟩ } with hh2
    have hslabAt_ne : ∀ j, j ≠ i → slabAt h2 j = slabAt h j := by
      intro j hj
      unfold slabAt
      rw [hh2]
      exact getD_set_ne _ _ _ (fun he => hj he.symm)
    have hslabAt_i : slabAt h2 i
        = ⟨SlabState.kAllocatedSlab, (slabAt h i).info⟩ := by
      unfold slabAt
      rw [hh2]
      exact getD_set_self _ _ _ _ (by rw [hg.len_eq]; omega)
    refine ⟨hg.base_pos, hg.ps_pos, hg.sr_pos, hg.ps_dvd_base, hg.sr_dvd_ps,
      hg.size_eq, by rw [hh2]; simp [hg.len_eq], ?_, ?_, ?_, ?_, ?_⟩
    · intro j hj
      have hji : j ≠ i := fun he => hnotfree (he ▸ hj)
      rw [hslabAt_ne j hji]
      exact hg.free_mem j hj
    · intro j hj
      have hjold : j ∈ h.quarantine := by
        rw [hq]
        exact List.mem_cons_of_mem i hj
      have hji : j ≠ i := fun he => hinot (he ▸ hj)
      rw [hslabAt_ne j hji]
      exact hg.quar_mem j hjold
    · exact hg.free_nodup
    · have := hg.quar_nodup
      rw [hq] at this
      exact (List.nodup_cons.mp this).2
    · intro j hj
      by_cases hji : j = i
      · subst hji
        refine slabBoundsOk_of h h2 j rfl rfl (by rw [hslabAt_i]) ?_
          (hg.bounds j hj)
        intro _
        rw [hstate]
        exact SlabState.noConfusion
      · exact slabBoundsOk_of h h2 j rfl rfl (by rw [hslabAt_ne j hji])
          (by rw [hslabAt_ne j hji]; exact id) (hg.bounds j hj)

/-- `Empty` preserves the invariant. -/
theorem goodHeap_empty (h : ZebraBlockHeap) (hg : GoodHeap h) :
    GoodHeap (Empty h).2 := by
  have heq : (Empty h).2 = { h with
      slabInfo := (emptyGo h.slabInfo h.quarantine []).1
      quarantine := [] } := rfl
  rw [heq]
  set h2 : ZebraBlockHeap := { h with
      slabInfo := (emptyGo h.slabInfo h.quarantine []).1
      quarantine := [] } with hh2
  have hkey : ∀ j, (slabAt h2 j).info = (slabAt h j).info ∧
      (slabAt h2 j).state = (if j ∈ h.quarantine ∧ j < h.slabInfo.length
        then SlabState.kAllocatedSlab else (slabAt h j).state) := by
    intro j
    exact emptyGo_slab h.quarantine h.slabInfo [] j
  refine ⟨hg.base_pos, hg.ps_pos, hg.sr_pos, hg.ps_dvd_base, hg.sr_dvd_ps,
    hg.size_eq, ?_, ?_, ?_, ?_, ?_, ?_⟩
  · show (emptyGo h.slabInfo h.quarantine []).1.length = h.slabCount
    rw [emptyGo_length]
    exact hg.len_eq
  · intro j hj
    have hnotq : j ∉ h.quarantine := fun hmem => by
      have h1 := (hg.free_mem j hj).2
      have h2q := (hg.quar_mem j hmem).2
      rw [h1] at h2q
      exact SlabState.noConfusion h2q
    refine ⟨(hg.free_mem j hj).1, ?_⟩
    rw [(hkey j).2, if_neg (by tauto)]
    exact (hg.free_mem j hj).2
  · intro j hj
    exact absurd hj (List.not_mem_nil j)
  · exact hg.free_nodup
  · exact List.nodup_nil
  · intro j hj
    by_cases hmem : j ∈ h.quarantine ∧ j < h.slabInfo.length
    · refine slabBoundsOk_of h h2 j rfl rfl (hkey j).1 ?_ (hg.bounds j hj)
      intro _
      rw [(hg.quar_mem j hmem.1).2]
      exact SlabState.noConfusion
    · refine slabBoundsOk_of h h2 j rfl rfl (hkey j).1 ?_ (hg.bounds j hj)
      rw [(hkey j).2, if_neg hmem]
      exact id

/-- `set_quarantine_ratio` preserves the invariant. -/
theorem goodHeap_setRatio (h : ZebraBlockHeap) (hg : GoodHeap h) (r : Nat) :
    GoodHeap (set_quarantine_ratio h r) :=
  ⟨hg.base_pos, hg.ps_pos, hg.sr_pos, hg.ps_dvd_base, hg.sr_dvd_ps,
    hg.size_eq, hg.len_eq, hg.free_mem, hg.quar_mem, hg.free_nodup,
    hg.quar_nodup, hg.bounds⟩

/-- Heap states reachable from a freshly constructed heap (well-formed
construction environment: non-null page-aligned base address, positive page
size, shadow ratio dividing the page size) by any sequence of the public
operations, under release (`DCHECK`-free) semantics.  `FreeBlock` delegates
to `Free` and is covered by the `free` step; `IsAllocated`,
`GetAllocationSize`, `GetCount` and the lock operations do not mutate. -/
inductive Reachable : ZebraBlockHeap → Prop where
  | init (heap_size heapAddress pageSize shadowRatio : Nat) (r : Nat)
      (hbase : 0 < heapAddress) (hps : 0 < pageSize) (hsr : 0 < shadowRatio)
      (hpb : pageSize ∣ heapAddress) (hsp : shadowRatio ∣ pageSize) :
      Reachable (initHeap heap_size heapAddress pageSize shadowRatio r)
  | allocate (h : ZebraBlockHeap) (bytes : Nat) :
      Reachable h → Reachable (Allocate h bytes).2
  | free (h : ZebraBlockHeap) (alloc : Nat) :
      Reachable h → Reachable (Free h alloc).2
  | allocateBlock (h : ZebraBlockHeap) (planner : Planner)
      (size minL minR : Nat) :
      Reachable h → Reachable (AllocateBlock h planner size minL minR).2
  | push (h : ZebraBlockHeap) (info : CompactBlockInfo) :
      Reachable h → Reachable (Push h info).2
  | pop (h : ZebraBlockHeap) : Reachable h → Reachable (Pop h).2
  | empty (h : ZebraBlockHeap) : Reachable h → Reachable (Empty h).2
  | setRatio (h : ZebraBlockHeap) (r : Nat) :
      Reachable h → Reachable (set_quarantine_ratio h r)

/-- Like `Reachable`, but every `Free` step respects the source's debug
assertion (`FreeSafe`): the freed pointer is never one of a currently
quarantined slab. -/
inductive ReachableD : ZebraBlockHeap → Prop where
  | init (heap_size heapAddress pageSize shadowRatio : Nat) (r : Nat)
      (hbase : 0 < heapAddress) (hps : 0 < pageSize) (hsr : 0 < shadowRatio)
      (hpb : pageSize ∣ heapAddress) (hsp : shadowRatio ∣ pageSize) :
      ReachableD (initHeap heap_size heapAddress pageSize shadowRatio r)
  | allocate (h : ZebraBlockHeap) (bytes : Nat) :
      ReachableD h → ReachableD (Allocate h bytes).2
  | free (h : ZebraBlockHeap) (alloc : Nat) :
      ReachableD h → FreeSafe h alloc → ReachableD (Free h alloc).2
  | allocateBlock (h : ZebraBlockHeap) (planner : Planner)
      (size minL minR : Nat) :
      ReachableD h → ReachableD (AllocateBlock h planner size minL minR).2
  | push (h : ZebraBlockHeap) (info : CompactBlockInfo) :
      ReachableD h → ReachableD (Push h info).2
  | pop (h : ZebraBlockHeap) : ReachableD h → ReachableD (Pop h).2
  | empty (h : ZebraBlockHeap) : ReachableD h → ReachableD (Empty h).2
  | setRatio (h : ZebraBlockHeap) (r : Nat) :
      ReachableD h → ReachableD (set_quarantine_ratio h r)

/-- The strengthened invariant holds in every assertion-respecting reachable
state. -/
theorem goodHeap_of_reachableD (h : ZebraBlockHeap) (hr : ReachableD h) :
    GoodHeap h := by
  induction hr with
  | init hs base ps sr r hbase hps hsr hpb hsp =>
    exact goodHeap_init hs base ps sr r hbase hps hsr hpb hsp
  | allocate h bytes _ ih => exact goodHeap_allocate h ih bytes
  | free h alloc _ hsafe ih => exact goodHeap_free h ih alloc hsafe
  | allocateBlock h planner size minL minR _ ih =>
    exact goodHeap_allocateBlock h ih planner size minL minR
  | push h info _ ih => exact goodHeap_push h ih info
  | pop h _ ih => exact goodHeap_pop h ih
  | empty h _ ih => exact goodHeap_empty h ih
  | setRatio h r _ ih => exact goodHeap_setRatio h ih r

/-- A state built by allocating the only slab of a one-slab heap
(quarantine ratio 0), quarantining it, freeing the quarantined pointer
(which release-mode `Free` permits) and then popping. -/
def badHeap : ZebraBlockHeap :=
  (Pop (Free (Push (Allocate (initHeap 32 16 16 8 0) 16).2
    ⟨16, 16, 0, 0, false⟩).2 16).2).2

/-- C9 (counterexample): `badHeap` is reachable by public operations, yet
its slab 0 is `kAllocatedSlab` with a null block address — the invariant
fails.  (The offending sequence frees a quarantined pointer; only a debug
assertion guards against it.) -/
theorem zebra_c9_cex : Reachable badHeap ∧ ¬ HeapInvariantC9 badHeap := by
  refine ⟨?_, by decide⟩
  exact Reachable.pop _ (Reachable.free _ 16 (Reachable.push _ _
    (Reachable.allocate _ 16 (Reachable.init 32 16 16 8 0 (by decide)
      (by decide) (by decide) (by decide) (by decide)))))

/-- C9 (amended): in every state reachable by any sequence of the public
operations from a freshly constructed heap in which `Free` is never applied
to a currently quarantined slab (the source's debug assertion), every slab
whose state is not `Free` has a non-null recorded block address that lies
within that slab's even (first) page, and `block + block_size` does not
extend past the end of that slab's two-page byte range.  (Freeing a
quarantined pointer is allowed by release-mode `Free` and breaks the
invariant, as `zebra_c9_cex` shows.) -/
theorem zebra_c9_amended (h : ZebraBlockHeap) (hr : ReachableD h) :
    HeapInvariantC9 h :=
  (goodHeap_of_reachableD h hr).bounds

/-- C9 (witness): the amended invariant at a concrete freshly constructed
heap. -/
theorem zebra_c9_witness : HeapInvariantC9 (initHeap 32 16 16 8 0) :=
  zebra_c9_amended (initHeap 32 16 16 8 0)
    (ReachableD.init 32 16 16 8 0 (by decide) (by decide) (by decide)
      (by decide) (by decide))

end Zebra
